import Mathlib

/-!
# Basket (cart) subsystem: shallow embedding and verified properties

The embedding follows four Go packages:

* `internal/basket/model`       (the records `BasketItem` and `Basket`),
* `internal/basket/repository`  (the read-modify-write protocol on the cache),
* `internal/basket/service`     (use-case orchestration, product lookup),
* `internal/basket/handler`     (request binding and status codes).

Modelling decisions.

* A Go `string` (a user id, the name, description and image reference of a line
  item) is a sequence of bytes, `GoString`; it need not be well-formed UTF-8.
  `json.Marshal` replaces every byte that is not part of a well-formed encoding
  by U+FFFD (`toValidUTF8`), and a decoded text is always well-formed.
* `float64` is `F64`: a finite value is the rational it denotes, next to the two
  infinities and NaN.  Every arithmetic step rounds to the nearest binary64
  value, ties to even (`F64.round`), and overflows to an infinity.  The two
  zeros are not told apart.  `json.Marshal` fails on an infinity or NaN.
* Go `int` is a mathematical integer; `+=` reduces the sum to two's complement
  of the platform width (`IntModel`, 32 or 64 bits).
* Go `uint` product ids are natural numbers; `uint32(x)` is `x % 2 ^ 32`.
* The cache is a finite-support key/value map seen as a function
  `GoString → Option Entry`; an entry carries the stored value and the expiry
  that `SET` was given.  Passing of real time (expiry firing) is not modelled.
* A stored value is either the JSON text of a basket (`Value.encoded`, for a
  basket that JSON can carry) or a text that `json.Unmarshal` rejects.
* `time.Now()` is the parameter `now`; transport failures of the cache client are
  the parameter `net`.
* The types are wider than the Go types: a quantity outside the `int` range, a
  product id outside the `uint` range and an `F64.finite q` whose `q` is not a
  binary64 value are values no Go caller passes and no JSON text decodes to.
  Statements quantify over them as well; every concrete record and argument
  used below is a value of its Go type on a 64-bit platform.
-/

namespace ClusterIac

/-! ## Go strings -/

/-- One byte of a Go string. -/
abbrev Byte := Fin 256

/-- A Go `string`: a sequence of bytes. -/
abbrev GoString := List Byte

/-- The UTF-8 encoding of one character. -/
def encodeRune (c : Char) : GoString :=
  let n := c.toNat
  if n < 0x80 then [Fin.ofNat n]
  else if n < 0x800 then [Fin.ofNat (0xC0 + n / 64), Fin.ofNat (0x80 + n % 64)]
  else if n < 0x10000 then
    [Fin.ofNat (0xE0 + n / 4096), Fin.ofNat (0x80 + n / 64 % 64), Fin.ofNat (0x80 + n % 64)]
  else
    [Fin.ofNat (0xF0 + n / 262144), Fin.ofNat (0x80 + n / 4096 % 64),
     Fin.ofNat (0x80 + n / 64 % 64), Fin.ofNat (0x80 + n % 64)]

/-- The Go string written as the literal `s`. -/
def utf8 (s : String) : GoString := (s.data.map encodeRune).flatten

/-- A continuation byte `80..BF`. -/
def isCont (b : Byte) : Bool := decide (0x80 ≤ b.val ∧ b.val ≤ 0xBF)

/-- A well-formed two-byte encoding. -/
def valid2 (b0 b1 : Byte) : Bool := decide (0xC2 ≤ b0.val ∧ b0.val ≤ 0xDF) && isCont b1

/-- A well-formed three-byte encoding (no overlong forms, no surrogates). -/
def valid3 (b0 b1 b2 : Byte) : Bool :=
  (decide (b0.val = 0xE0 ∧ 0xA0 ≤ b1.val ∧ b1.val ≤ 0xBF) ||
   decide ((0xE1 ≤ b0.val ∧ b0.val ≤ 0xEC ∨ 0xEE ≤ b0.val ∧ b0.val ≤ 0xEF) ∧ isCont b1 = true) ||
   decide (b0.val = 0xED ∧ 0x80 ≤ b1.val ∧ b1.val ≤ 0x9F)) && isCont b2

/-- A well-formed four-byte encoding (up to U+10FFFF). -/
def valid4 (b0 b1 b2 b3 : Byte) : Bool :=
  (decide (b0.val = 0xF0 ∧ 0x90 ≤ b1.val ∧ b1.val ≤ 0xBF) ||
   decide (0xF1 ≤ b0.val ∧ b0.val ≤ 0xF3 ∧ isCont b1 = true) ||
   decide (b0.val = 0xF4 ∧ 0x80 ≤ b1.val ∧ b1.val ≤ 0x8F)) && isCont b2 && isCont b3

/-- The encoding of U+FFFD. -/
def replacement : GoString := [0xEF, 0xBF, 0xBD]

/-- Number of bytes of the well-formed encoding at the head of the text, `0` when
the head byte does not start one (`utf8.DecodeRuneInString` reporting an error). -/
def runeLen : GoString → Nat
  | [] => 0
  | b0 :: t1 =>
    if b0.val < 0x80 then 1
    else
      match t1 with
      | [] => 0
      | b1 :: t2 =>
        if valid2 b0 b1 then 2
        else
          match t2 with
          | [] => 0
          | b2 :: t3 =>
            if valid3 b0 b1 b2 then 3
            else
              match t3 with
              | [] => 0
              | b3 :: _ => if valid4 b0 b1 b2 b3 then 4 else 0

/-- Copies well-formed encodings and replaces every other byte by U+FFFD; `skip`
counts the bytes of the current encoding that are still to be copied. -/
def sanitizeFrom : Nat → GoString → GoString
  | _, [] => []
  | skip + 1, b :: rest => b :: sanitizeFrom skip rest
  | 0, b :: rest =>
    match runeLen (b :: rest) with
    | 0 => replacement ++ sanitizeFrom 0 rest
    | n + 1 => b :: sanitizeFrom n rest

/-- The text that `json.Marshal` followed by `json.Unmarshal` gives back for a
Go string: bytes outside well-formed UTF-8 become U+FFFD. -/
def toValidUTF8 (s : GoString) : GoString := sanitizeFrom 0 s

/-! ## float64 -/

/-- Position of the leading bit of `n`, by halving at most `fuel` times. -/
def log2Fuel : Nat → Nat → Nat
  | 0, _ => 0
  | fuel + 1, n => if 2 ≤ n then log2Fuel fuel (n / 2) + 1 else 0

/-- Position of the leading bit of `n` (`0` for `n ≤ 1`). -/
def log2 (n : Nat) : Nat := log2Fuel n n

/-- Nearest natural number to `n / d`, ties to even. -/
def divRoundEven (n d : Nat) : Nat :=
  let q := n / d
  let r := n % d
  if 2 * r < d then q
  else if d < 2 * r then q + 1
  else if q % 2 = 0 then q else q + 1

/-- The exponent `e` with `2 ^ e ≤ n / d < 2 ^ (e + 1)`, for positive `n` and `d`. -/
def floorLog2 (n d : Nat) : Int :=
  let e0 : Int := (log2 n : Int) - (log2 d : Int)
  if e0 ≥ 0 then
    (if n < d * 2 ^ e0.toNat then e0 - 1 else e0)
  else
    (if n * 2 ^ (-e0).toNat < d then e0 - 1 else e0)

/-- The binary64 value nearest to `n / d > 0`, as mantissa and exponent of the
last place: 53 bits of precision, exponent of the last place at least `-1074`. -/
def roundPos (n d : Nat) : Nat × Int :=
  let e0 := floorLog2 n d
  let e := if e0 < -1022 then -1022 else e0
  let k := e - 52
  let m :=
    if k ≥ 0 then divRoundEven n (d * 2 ^ k.toNat)
    else divRoundEven (n * 2 ^ (-k).toNat) d
  (m, k)

/-- A `float64` value. -/
inductive F64 where
  | finite (q : ℚ)
  | posInf
  | negInf
  | nan
  deriving DecidableEq, Repr

/-- The value `± m * 2 ^ k`, or the infinity of that sign from `2 ^ 1024` on. -/
def F64.pack (neg : Bool) (mk : Nat × Int) : F64 :=
  if mk.2 ≥ 0 then
    (if mk.1 * 2 ^ mk.2.toNat ≥ 2 ^ 1024 then (if neg then .negInf else .posInf)
     else .finite (if neg then -((mk.1 * 2 ^ mk.2.toNat : Nat) : ℚ)
                   else ((mk.1 * 2 ^ mk.2.toNat : Nat) : ℚ)))
  else
    .finite (if neg then -(mkRat mk.1 (2 ^ (-mk.2).toNat)) else mkRat mk.1 (2 ^ (-mk.2).toNat))

/-- Rounding of an exact result to `float64`: nearest value, ties to even. -/
def F64.round (x : ℚ) : F64 :=
  if x.num = 0 then .finite 0
  else F64.pack (decide (x.num < 0)) (roundPos x.num.natAbs x.den)

/-- Go conversion `float64(n)` of an `int`. -/
def F64.ofInt (n : Int) : F64 := F64.round (n : ℚ)

/-- Not an infinity and not NaN. -/
def F64.isFinite : F64 → Bool
  | .finite _ => true
  | _ => false

/-- The rational a finite value denotes (`0` for the others). -/
def F64.toRat : F64 → ℚ
  | .finite q => q
  | _ => 0

/-- The infinity with the sign of `x` when `positive`, the other one otherwise. -/
def F64.infOfSign (positive : Bool) : F64 := if positive then .posInf else .negInf

/-- Go `a * b` on `float64`. -/
def F64.mul : F64 → F64 → F64
  | .nan, _ => .nan
  | _, .nan => .nan
  | .finite a, .finite b => F64.round (a * b)
  | .finite a, .posInf => if a = 0 then .nan else F64.infOfSign (decide (0 < a))
  | .finite a, .negInf => if a = 0 then .nan else F64.infOfSign (decide (a < 0))
  | .posInf, .finite b => if b = 0 then .nan else F64.infOfSign (decide (0 < b))
  | .negInf, .finite b => if b = 0 then .nan else F64.infOfSign (decide (b < 0))
  | .posInf, .posInf => .posInf
  | .posInf, .negInf => .negInf
  | .negInf, .posInf => .negInf
  | .negInf, .negInf => .posInf

/-- Go `a + b` on `float64`. -/
def F64.add : F64 → F64 → F64
  | .nan, _ => .nan
  | _, .nan => .nan
  | .finite a, .finite b => F64.round (a + b)
  | .finite _, .posInf => .posInf
  | .finite _, .negInf => .negInf
  | .posInf, .finite _ => .posInf
  | .negInf, .finite _ => .negInf
  | .posInf, .posInf => .posInf
  | .negInf, .negInf => .negInf
  | .posInf, .negInf => .nan
  | .negInf, .posInf => .nan

/-! ## model -/

/-- Go struct `model.BasketItem`. -/
structure BasketItem where
  ProductID : Nat
  Name : GoString
  Description : GoString
  Price : F64
  ImageURL : GoString
  Quantity : Int
  deriving DecidableEq, Repr

/-- Go struct `model.Basket`. -/
structure Basket where
  UserID : GoString
  Items : List BasketItem
  Total : F64
  CreatedAt : Nat
  UpdatedAt : Nat
  deriving DecidableEq, Repr

/-! ## machine integers -/

/-- Reduction of a mathematical integer to two's complement of `bits` bits. -/
def wrapInt (bits : Nat) (x : Int) : Int :=
  (x + 2 ^ (bits - 1)) % 2 ^ bits - 2 ^ (bits - 1)

/-- Reduction of a mathematical integer to 64-bit two's complement. -/
def wrapInt64 (x : Int) : Int := (x + 2 ^ 63) % 2 ^ 64 - 2 ^ 63

/-- The width of Go `int` on the platform the service is built for. -/
inductive IntModel where
  | int32
  | int64
  deriving DecidableEq, Repr

/-- The number of bits of Go `int`. -/
def IntModel.bits : IntModel → Nat
  | .int32 => 32
  | .int64 => 64

/-- Go `a + b` on `int`. -/
def IntModel.add : IntModel → Int → Int → Int
  | .int32, a, b => wrapInt 32 (a + b)
  | .int64, a, b => wrapInt64 (a + b)

/-- Go conversion `uint32(x)` of a `uint`. -/
def uint32 (x : Nat) : Nat := x % 2 ^ 32

/-! ## errors, cache client -/

/-- Errors that travel through the basket code. -/
inductive Error where
  | redisNil
  | transport
  | jsonSyntax
  | jsonUnsupportedValue
  | rpc (msg : String)
  | failedToGetProduct (cause : Error)
  deriving DecidableEq, Repr

/-- Results of the cart store methods can be compared. -/
instance decEqResult : DecidableEq (Except Error Unit) := fun a b =>
  match a, b with
  | .ok (), .ok () => isTrue rfl
  | .error e1, .error e2 =>
    if h : e1 = e2 then isTrue (h ▸ rfl) else isFalse (fun h2 => h (Except.error.inj h2))
  | .ok _, .error _ => isFalse (fun h => Except.noConfusion h)
  | .error _, .ok _ => isFalse (fun h => Except.noConfusion h)

/-- A value held by the cache: the JSON text of a basket, or a text that does not
decode to one. -/
inductive Value where
  | encoded (b : Basket)
  | undecodable (text : String)
  deriving DecidableEq, Repr

/-- A cache entry: the value and the expiry (nanoseconds) given to `SET`. -/
structure Entry where
  value : Value
  ttl : Nat
  deriving DecidableEq, Repr

/-- The cache contents, by key. -/
abbrev Store := GoString → Option Entry

/-- The cache with no keys. -/
def emptyStore : Store := fun _ => none

/-- Which cache commands fail with a transport error. -/
structure Transport where
  getFails : Bool
  setFails : Bool
  delFails : Bool
  deriving DecidableEq, Repr

/-- A connection on which every command goes through. -/
def Transport.healthy : Transport := ⟨false, false, false⟩

/-- `redisClient.Get(ctx, key).Result()`. -/
def redisGet (net : Transport) (s : Store) (key : GoString) : Except Error Value × Store :=
  if net.getFails then (.error .transport, s)
  else
    match s key with
    | none => (.error .redisNil, s)
    | some e => (.ok e.value, s)

/-- `redisClient.Set(ctx, key, data, ttl).Err()`. -/
def redisSet (net : Transport) (s : Store) (key : GoString) (data : Value) (ttl : Nat) :
    Except Error Unit × Store :=
  if net.setFails then (.error .transport, s)
  else (.ok (), fun k => if k = key then some ⟨data, ttl⟩ else s k)

/-- `redisClient.Del(ctx, key).Err()`. -/
def redisDel (net : Transport) (s : Store) (key : GoString) : Except Error Unit × Store :=
  if net.delFails then (.error .transport, s)
  else (.ok (), fun k => if k = key then none else s k)

/-- Every `float64` of the basket is finite: the values JSON can carry. -/
def jsonFinite (b : Basket) : Bool :=
  b.Total.isFinite && b.Items.all (fun item => item.Price.isFinite)

/-- The line item as JSON carries it: ill-formed bytes of its texts replaced. -/
def cleanItem (x : BasketItem) : BasketItem :=
  { x with Name := toValidUTF8 x.Name, Description := toValidUTF8 x.Description,
           ImageURL := toValidUTF8 x.ImageURL }

/-- `json.Marshal(basket)`: fails on an infinity or NaN, writes every text with
ill-formed bytes replaced. -/
def jsonMarshal (b : Basket) : Except Error Value :=
  if jsonFinite b then
    .ok (.encoded { b with UserID := toValidUTF8 b.UserID, Items := b.Items.map cleanItem })
  else .error .jsonUnsupportedValue

/-- The baskets a JSON text can decode to: well-formed texts, finite numbers. -/
def decodable (b : Basket) : Bool :=
  decide (toValidUTF8 b.UserID = b.UserID) && decide (b.Items.map cleanItem = b.Items) &&
    jsonFinite b

/-- `json.Unmarshal([]byte(data), &basket)`. -/
def jsonUnmarshal : Value → Except Error Basket
  | .encoded b => if decodable b then .ok b else .error .jsonSyntax
  | .undecodable _ => .error .jsonSyntax

/-- `24*time.Hour` as a `time.Duration` (nanoseconds). -/
def ttl24h : Nat := 24 * 3600 * 1000000000

/-! ## repository -/

namespace repository

/-- The key `fmt.Sprintf("basket:%s", userID)`. -/
def key (userID : GoString) : GoString := utf8 "basket:" ++ userID

/-- The method `calculateTotal`: a left-to-right accumulation in `float64`. -/
def calculateTotal (items : List BasketItem) : F64 :=
  items.foldl (fun total item => F64.add total (F64.mul item.Price (F64.ofInt item.Quantity)))
    (F64.finite 0)

/-- The scan `for i, item := range items { if item.ProductID == productID ... }`:
index of the first item with the given product id. -/
def findItem (productID : Nat) : List BasketItem → Option Nat
  | [] => none
  | x :: xs =>
    if x.ProductID = productID then some 0
    else (findItem productID xs).map (· + 1)

/-- The statement `items[i].Quantity += q`. -/
def addQuantityAt (m : IntModel) (items : List BasketItem) (i : Nat) (q : Int) :
    List BasketItem :=
  match items.get? i with
  | some x => items.set i { x with Quantity := m.add x.Quantity q }
  | none => items

/-- The statement `items[i].Quantity = q`. -/
def setQuantityAt (items : List BasketItem) (i : Nat) (q : Int) : List BasketItem :=
  match items.get? i with
  | some x => items.set i { x with Quantity := q }
  | none => items

/-- The expression `append(items[:i], items[i+1:]...)`. -/
def deleteAt (items : List BasketItem) (i : Nat) : List BasketItem :=
  items.take i ++ items.drop (i + 1)

/-- The method `GetBasket`. -/
def GetBasket (net : Transport) (now : Nat) (s : Store) (userID : GoString) :
    Except Error Basket × Store :=
  match redisGet net s (key userID) with
  | (.error .redisNil, s1) =>
    (.ok { UserID := userID, Items := [], Total := F64.finite 0, CreatedAt := now,
           UpdatedAt := now }, s1)
  | (.error err, s1) => (.error err, s1)
  | (.ok data, s1) =>
    match jsonUnmarshal data with
    | .error err => (.error err, s1)
    | .ok basket => (.ok basket, s1)

/-- The method `SaveBasket`. -/
def SaveBasket (net : Transport) (now : Nat) (s : Store) (basket : Basket) :
    Except Error Unit × Store :=
  let basket1 := { basket with UpdatedAt := now }
  match jsonMarshal basket1 with
  | .error err => (.error err, s)
  | .ok data => redisSet net s (key basket.UserID) data ttl24h

/-- The method `DeleteBasket`. -/
def DeleteBasket (net : Transport) (s : Store) (userID : GoString) :
    Except Error Unit × Store :=
  redisDel net s (key userID)

/-- The method `AddItem`. -/
def AddItem (m : IntModel) (net : Transport) (now : Nat) (s : Store) (userID : GoString)
    (item : BasketItem) : Except Error Unit × Store :=
  match GetBasket net now s userID with
  | (.error err, s1) => (.error err, s1)
  | (.ok basket, s1) =>
    match findItem item.ProductID basket.Items with
    | some i =>
      let items := addQuantityAt m basket.Items i item.Quantity
      SaveBasket net now s1 { basket with Items := items, Total := calculateTotal items }
    | none =>
      let items := basket.Items ++ [item]
      SaveBasket net now s1 { basket with Items := items, Total := calculateTotal items }

/-- The method `RemoveItem`. -/
def RemoveItem (net : Transport) (now : Nat) (s : Store) (userID : GoString)
    (productID : Nat) : Except Error Unit × Store :=
  match GetBasket net now s userID with
  | (.error err, s1) => (.error err, s1)
  | (.ok basket, s1) =>
    match findItem productID basket.Items with
    | some i =>
      let items := deleteAt basket.Items i
      SaveBasket net now s1 { basket with Items := items, Total := calculateTotal items }
    | none => (.ok (), s1)

/-- The method `UpdateItemQuantity`. -/
def UpdateItemQuantity (net : Transport) (now : Nat) (s : Store) (userID : GoString)
    (productID : Nat) (quantity : Int) : Except Error Unit × Store :=
  match GetBasket net now s userID with
  | (.error err, s1) => (.error err, s1)
  | (.ok basket, s1) =>
    match findItem productID basket.Items with
    | some i =>
      let items :=
        if quantity ≤ 0 then deleteAt basket.Items i
        else setQuantityAt basket.Items i quantity
      SaveBasket net now s1 { basket with Items := items, Total := calculateTotal items }
    | none => (.ok (), s1)

end repository

/-! ## service -/

/-- The fields of `product.Product` that the generated client returns. -/
structure Product where
  Id : Nat
  Name : GoString
  Description : GoString
  Price : F64
  Stock : Int
  Category : GoString
  ImageUrl : GoString
  deriving DecidableEq, Repr

/-- The call `productClient.GetProduct(ctx, &GetProductRequest{Id: id})`, a
parameter of the service: the generated client is not part of the sources. -/
abbrev ProductClient := Nat → Except Error Product

namespace service

/-- The method `basketService.GetBasket`. -/
def GetBasket (net : Transport) (now : Nat) (s : Store) (userID : GoString) :
    Except Error Basket × Store :=
  repository.GetBasket net now s userID

/-- The method `basketService.AddItem`. -/
def AddItem (client : ProductClient) (m : IntModel) (net : Transport) (now : Nat) (s : Store)
    (userID : GoString) (productID : Nat) (quantity : Int) : Except Error Unit × Store :=
  match client (uint32 productID) with
  | .error err => (.error (.failedToGetProduct err), s)
  | .ok productResp =>
    let item : BasketItem :=
      { ProductID := productID
        Name := productResp.Name
        Description := productResp.Description
        Price := productResp.Price
        ImageURL := productResp.ImageUrl
        Quantity := quantity }
    repository.AddItem m net now s userID item

/-- The method `basketService.RemoveItem`. -/
def RemoveItem (net : Transport) (now : Nat) (s : Store) (userID : GoString)
    (productID : Nat) : Except Error Unit × Store :=
  repository.RemoveItem net now s userID productID

/-- The method `basketService.UpdateItemQuantity`. -/
def UpdateItemQuantity (net : Transport) (now : Nat) (s : Store) (userID : GoString)
    (productID : Nat) (quantity : Int) : Except Error Unit × Store :=
  repository.UpdateItemQuantity net now s userID productID quantity

/-- The method `basketService.ClearBasket`. -/
def ClearBasket (net : Transport) (s : Store) (userID : GoString) : Except Error Unit × Store :=
  repository.DeleteBasket net s userID

end service

/-! ## handler -/

namespace handler

/-- The request body of add-item after JSON decoding. -/
structure AddItemRequest where
  ProductID : Nat
  Quantity : Int
  deriving DecidableEq, Repr

/-- The request body of update-quantity after JSON decoding. -/
structure UpdateItemQuantityRequest where
  Quantity : Int
  deriving DecidableEq, Repr

/-- The binding rule `required` on a numeric field: the zero value is rejected. -/
def required (x : Int) : Bool := x != 0

/-- The binding rule `min=bound` on a numeric field. -/
def minRule (bound x : Int) : Bool := decide (bound ≤ x)

/-- The call `strconv.ParseUint(text, 10, 32)`. -/
def parseUint32 (text : String) : Option Nat :=
  match text.toNat? with
  | some n => if n < 2 ^ 32 then some n else none
  | none => none

/-- The method `BasketHandler.AddItem`: the response status and the store.
`body` is `none` when the request body does not decode. -/
def AddItem (client : ProductClient) (m : IntModel) (net : Transport) (now : Nat) (s : Store)
    (userID : GoString) (body : Option AddItemRequest) : Nat × Store :=
  if userID = [] then (400, s)
  else
    match body with
    | none => (400, s)
    | some req =>
      if required (req.ProductID : Int) && (required req.Quantity && minRule 1 req.Quantity) then
        match service.AddItem client m net now s userID req.ProductID req.Quantity with
        | (.error _, s1) => (500, s1)
        | (.ok _, s1) => (200, s1)
      else (400, s)

/-- The method `BasketHandler.UpdateItemQuantity`: the response status and the
store.  `body` is `none` when the request body does not decode. -/
def UpdateItemQuantity (net : Transport) (now : Nat) (s : Store) (userID : GoString)
    (productIDStr : String) (body : Option UpdateItemQuantityRequest) : Nat × Store :=
  if userID = [] then (400, s)
  else
    match parseUint32 productIDStr with
    | none => (400, s)
    | some productID =>
      match body with
      | none => (400, s)
      | some req =>
        if required req.Quantity && minRule 0 req.Quantity then
          match service.UpdateItemQuantity net now s userID productID req.Quantity with
          | (.error _, s1) => (500, s1)
          | (.ok _, s1) => (200, s1)
        else (400, s)

end handler

/-! ## call sequences on the repository -/

/-- One mutating call on the cart store. -/
inductive Op where
  | addItem (userID : GoString) (item : BasketItem)
  | removeItem (userID : GoString) (productID : Nat)
  | updateItemQuantity (userID : GoString) (productID : Nat) (quantity : Int)
  deriving DecidableEq, Repr

/-- A call together with its environment: the state of the connection and the
clock reading while it runs. -/
structure Call where
  net : Transport
  now : Nat
  op : Op
  deriving DecidableEq, Repr

/-- Runs one call on the store. -/
def exec (m : IntModel) (s : Store) (c : Call) : Except Error Unit × Store :=
  match c.op with
  | .addItem userID item => repository.AddItem m c.net c.now s userID item
  | .removeItem userID productID => repository.RemoveItem c.net c.now s userID productID
  | .updateItemQuantity userID productID quantity =>
    repository.UpdateItemQuantity c.net c.now s userID productID quantity

/-- Runs a sequence of calls, each on the store left by the previous one. -/
def run (m : IntModel) (s : Store) (cs : List Call) : Store :=
  cs.foldl (fun st c => (exec m st c).2) s

/-! ## sample data -/

/-- Product 7, "Widget" at 9.5, two pieces. -/
def widgetTwo : BasketItem :=
  { ProductID := 7, Name := utf8 "Widget", Description := utf8 "A widget",
    Price := F64.finite (19 / 2),
    ImageURL := utf8 "widget.png", Quantity := 2 }

/-- Product 7 again, three pieces, under a later catalog snapshot. -/
def widgetThree : BasketItem :=
  { ProductID := 7, Name := utf8 "Widget (new)", Description := utf8 "A newer widget",
    Price := F64.finite 12, ImageURL := utf8 "widget-new.png", Quantity := 3 }

/-- Product 7, the largest quantity a 64-bit `int` holds. -/
def widgetMax : BasketItem :=
  { ProductID := 7, Name := utf8 "Widget", Description := utf8 "A widget",
    Price := F64.finite (19 / 2),
    ImageURL := utf8 "widget.png", Quantity := 9223372036854775807 }

/-- Product 7, one piece. -/
def widgetOne : BasketItem :=
  { ProductID := 7, Name := utf8 "Widget", Description := utf8 "A widget",
    Price := F64.finite (19 / 2),
    ImageURL := utf8 "widget.png", Quantity := 1 }

/-- Product 7, five pieces: the line item after adding two and three. -/
def widgetFive : BasketItem :=
  { ProductID := 7, Name := utf8 "Widget", Description := utf8 "A widget",
    Price := F64.finite (19 / 2),
    ImageURL := utf8 "widget.png", Quantity := 5 }

/-- Product 8, "Gadget" at 4, one piece. -/
def gadgetOne : BasketItem :=
  { ProductID := 8, Name := utf8 "Gadget", Description := utf8 "A gadget", Price := F64.finite 4,
    ImageURL := utf8 "gadget.png", Quantity := 1 }

/-- Product 9 at the `float64` nearest to 0.1, three pieces. -/
def tenthThree : BasketItem :=
  { ProductID := 9, Name := utf8 "Washer", Description := utf8 "A washer",
    Price := F64.finite (3602879701896397 / 36028797018963968),
    ImageURL := utf8 "washer.png", Quantity := 3 }

/-- Product 9 at 1, `2 ^ 53 + 1` pieces. -/
def grainMany : BasketItem :=
  { ProductID := 9, Name := utf8 "Grain", Description := utf8 "A grain", Price := F64.finite 1,
    ImageURL := utf8 "grain.png", Quantity := 9007199254740993 }

/-- Product 9 at `2 ^ 1023`, one piece. -/
def hugeOne : BasketItem :=
  { ProductID := 9, Name := utf8 "Yacht", Description := utf8 "A yacht",
    Price := F64.finite (2 ^ 1023),
    ImageURL := utf8 "yacht.png", Quantity := 1 }

/-- Product 9 at `2 ^ 1023`, two pieces. -/
def hugeTwo : BasketItem :=
  { ProductID := 9, Name := utf8 "Yacht", Description := utf8 "A yacht",
    Price := F64.finite (2 ^ 1023),
    ImageURL := utf8 "yacht.png", Quantity := 2 }

/-- Product 7 at `- 2 ^ 1023`, one piece: a credit line. -/
def creditOne : BasketItem :=
  { ProductID := 7, Name := utf8 "Credit", Description := utf8 "A credit",
    Price := F64.finite (-(2 ^ 1023)),
    ImageURL := utf8 "credit.png", Quantity := 1 }

/-- Product 8 at `2 ^ 1023`, one piece. -/
def villaOne : BasketItem :=
  { ProductID := 8, Name := utf8 "Villa", Description := utf8 "A villa",
    Price := F64.finite (2 ^ 1023),
    ImageURL := utf8 "villa.png", Quantity := 1 }

/-- The stored cart of user "u1" after the two widget additions: one line item,
five widgets. -/
def widgetCart : Basket :=
  { UserID := utf8 "u1", Items := [widgetFive], Total := F64.finite (95 / 2),
    CreatedAt := 0, UpdatedAt := 1 }

/-- The five-widget cart of user "u1" with one gadget after the widgets. -/
def widgetGadgetCart : Basket :=
  { UserID := utf8 "u1", Items := [widgetFive, gadgetOne], Total := F64.finite (103 / 2),
    CreatedAt := 0, UpdatedAt := 2 }

/-- The cart of user "u1" with five widgets and three washers; the total is the
`float64` the store computes for it. -/
def widgetWasherCart : Basket :=
  { UserID := utf8 "u1", Items := [widgetFive, tenthThree],
    Total := F64.finite (3363625971692339 / 70368744177664), CreatedAt := 0, UpdatedAt := 2 }

/-- The cart of user "u1" with a villa, a credit and a yacht, total `2 ^ 1023`. -/
def offsetCart : Basket :=
  { UserID := utf8 "u1", Items := [villaOne, creditOne, hugeOne], Total := F64.finite (2 ^ 1023),
    CreatedAt := 0, UpdatedAt := 3 }

/-- The cart of user "u1" with one yacht, total `2 ^ 1023`. -/
def yachtCart : Basket :=
  { UserID := utf8 "u1", Items := [hugeOne], Total := F64.finite (2 ^ 1023),
    CreatedAt := 0, UpdatedAt := 1 }

/-- A user id that is the single byte `0xff`, not well-formed UTF-8. -/
def userFF : GoString := [0xFF]

/-- The record the store writes for the user id `0xff` after two widgets were
added: its user id reads U+FFFD. -/
def rewrittenCart : Basket :=
  { UserID := replacement, Items := [widgetTwo], Total := F64.finite 19,
    CreatedAt := 0, UpdatedAt := 0 }

/-- Product 7 with a name that is the single byte `0xff`. -/
def namelessTwo : BasketItem :=
  { ProductID := 7, Name := [0xFF], Description := utf8 "A widget", Price := F64.finite (19 / 2),
    ImageURL := utf8 "widget.png", Quantity := 2 }

/-- The record under the key of user "u1" in `crossedStore`: it carries the user
id "u2" and no items. -/
def crossedCart : Basket :=
  { UserID := utf8 "u2", Items := [], Total := F64.finite 0, CreatedAt := 0, UpdatedAt := 0 }

/-- A store whose value under the key of user "u1" does not decode. -/
def corruptStore : Store :=
  fun k => if k = repository.key (utf8 "u1") then some ⟨Value.undecodable "\x7bnot json", ttl24h⟩
    else none

/-- A store whose record under the key of user "u1" carries the user id "u2". -/
def crossedStore : Store :=
  fun k => if k = repository.key (utf8 "u1") then some ⟨Value.encoded crossedCart, ttl24h⟩
    else none

/-- A product lookup that always fails. -/
def failingClient : ProductClient := fun _ => .error (.rpc "product not found")

/-- A product lookup that knows product 7 only. -/
def catalogClient : ProductClient := fun id =>
  if id = 7 then
    .ok { Id := 7, Name := utf8 "Widget", Description := utf8 "A widget",
          Price := F64.finite (19 / 2),
          Stock := 10, Category := utf8 "tools", ImageUrl := utf8 "widget.png" }
  else .error (.rpc "product not found")

/-- The cart `GetBasket` builds for a user without a record. -/
def freshBasket (userID : GoString) (now : Nat) : Basket :=
  { UserID := userID, Items := [], Total := F64.finite 0, CreatedAt := now, UpdatedAt := now }

/-! ## specification-side notions -/

/-- The store after a successful `SET` of the JSON text of `b` under the key of
`userID`, with the 24 hour expiry. -/
def Store.set (s : Store) (userID : GoString) (b : Basket) : Store :=
  fun k => if k = repository.key userID then some ⟨Value.encoded b, ttl24h⟩ else s k

/-- The store after a successful `SET` of the JSON text of `b` under the key of
its own `UserID`. -/
def Store.put (s : Store) (b : Basket) : Store :=
  fun k => if k = repository.key b.UserID then some ⟨Value.encoded b, ttl24h⟩ else s k

/-- The record `SaveBasket` writes when a method replaces the items of the cart
`b` it read by `items`: user id as JSON carries it, recomputed total, new
`UpdatedAt`. -/
def Basket.written (b : Basket) (items : List BasketItem) (now : Nat) : Basket :=
  { b with UserID := toValidUTF8 b.UserID, Items := items.map cleanItem,
           Total := repository.calculateTotal items, UpdatedAt := now }

/-- The exact sum of `price * quantity` over a sequence of line items. -/
def lineSum (items : List BasketItem) : ℚ :=
  (items.map (fun item => item.Price.toRat * (item.Quantity : ℚ))).sum

/-- No step of the accumulation from `acc` on rounds: every price is finite and
every converted quantity, product and partial sum is a `float64`. -/
def noRounding : ℚ → List BasketItem → Bool
  | _, [] => true
  | acc, x :: xs =>
    x.Price.isFinite &&
    decide (F64.ofInt x.Quantity = F64.finite (x.Quantity : ℚ)) &&
    decide (F64.round (x.Price.toRat * (x.Quantity : ℚ))
      = F64.finite (x.Price.toRat * (x.Quantity : ℚ))) &&
    decide (F64.round (acc + x.Price.toRat * (x.Quantity : ℚ))
      = F64.finite (acc + x.Price.toRat * (x.Quantity : ℚ))) &&
    noRounding (acc + x.Price.toRat * (x.Quantity : ℚ)) xs

/-- Every cart record held in the store has the `total` that `calculateTotal`
gives for its items. -/
def TotalInvariant (s : Store) : Prop :=
  ∀ k e b, s k = some e → e.value = Value.encoded b →
    b.Total = repository.calculateTotal b.Items

/-- The user a call is made for. -/
def Op.userID : Op → GoString
  | .addItem userID _ => userID
  | .removeItem userID _ => userID
  | .updateItemQuantity userID _ _ => userID

/-- The item sequence a call writes back, given the one it read; `none` when the
call returns without writing. -/
def applyOp (m : IntModel) : Op → List BasketItem → Option (List BasketItem)
  | .addItem _ item, items =>
    match repository.findItem item.ProductID items with
    | some i => some (repository.addQuantityAt m items i item.Quantity)
    | none => some (items ++ [item])
  | .removeItem _ productID, items =>
    (repository.findItem productID items).map (repository.deleteAt items)
  | .updateItemQuantity _ productID quantity, items =>
    (repository.findItem productID items).map fun i =>
      if quantity ≤ 0 then repository.deleteAt items i
      else repository.setQuantityAt items i quantity

/-- No two items of any stored cart share a product id. -/
def UniqueInvariant (s : Store) : Prop :=
  ∀ k e b, s k = some e → e.value = Value.encoded b →
    (b.Items.map BasketItem.ProductID).Nodup

/-- Every line item of every stored cart has quantity at least one. -/
def PositiveInvariant (s : Store) : Prop :=
  ∀ k e b, s k = some e → e.value = Value.encoded b → ∀ x ∈ b.Items, 1 ≤ x.Quantity

/-- Every line item of every stored cart has a quantity from 1 to `bound`. -/
def BoundedInvariant (bound : Int) (s : Store) : Prop :=
  ∀ k e b, s k = some e → e.value = Value.encoded b →
    ∀ x ∈ b.Items, 1 ≤ x.Quantity ∧ x.Quantity ≤ bound

/-- The quantity checked by the request binding of add-item: at least one. -/
def Op.addsAtLeastOne : Op → Prop
  | .addItem _ item => 1 ≤ item.Quantity
  | .removeItem _ _ => True
  | .updateItemQuantity _ _ _ => True

/-- The quantity a call carries is at most `bound`. -/
def Op.quantityAtMost (bound : Int) : Op → Prop
  | .addItem _ item => item.Quantity ≤ bound
  | .removeItem _ _ => True
  | .updateItemQuantity _ _ quantity => quantity ≤ bound

/-- The `Quantity +=` of the call, if it performs one on the cart it reads from
`s`, has its exact sum below `2 ^ (bits - 1)`. -/
def Call.noOverflow (m : IntModel) (s : Store) (c : Call) : Bool :=
  match c.op with
  | .addItem userID item =>
    match (repository.GetBasket c.net c.now s userID).1 with
    | .ok b =>
      match repository.findItem item.ProductID b.Items with
      | some i =>
        match b.Items.get? i with
        | some x => decide (x.Quantity + item.Quantity < 2 ^ (m.bits - 1))
        | none => true
      | none => true
    | .error _ => true
  | .removeItem _ _ => true
  | .updateItemQuantity _ _ _ => true

/-- No `Quantity +=` of the call sequence run from `s` leaves the `int` range
upwards. -/
def noOverflowRun (m : IntModel) : Store → List Call → Bool
  | _, [] => true
  | s, c :: cs => c.noOverflow m s && noOverflowRun m (exec m s c).2 cs

/-! ## line items as JSON carries them -/

theorem cleanItem_ProductID (x : BasketItem) : (cleanItem x).ProductID = x.ProductID := rfl

theorem cleanItem_Quantity (x : BasketItem) : (cleanItem x).Quantity = x.Quantity := rfl

theorem cleanItem_Price (x : BasketItem) : (cleanItem x).Price = x.Price := rfl

theorem map_clean_ProductID (items : List BasketItem) :
    (items.map cleanItem).map BasketItem.ProductID = items.map BasketItem.ProductID := by
  simp [List.map_map, Function.comp_def, cleanItem_ProductID]

theorem calculateTotal_clean (items : List BasketItem) :
    repository.calculateTotal (items.map cleanItem) = repository.calculateTotal items := by
  unfold repository.calculateTotal
  rw [List.foldl_map]
  rfl

theorem clean_iff (items : List BasketItem) :
    items.map cleanItem = items ↔ ∀ x ∈ items, cleanItem x = x := by
  induction items with
  | nil => simp
  | cons a as ih => simp [ih]

theorem cleanItem_with_quantity (x : BasketItem) (q : Int) (h : cleanItem x = x) :
    cleanItem { x with Quantity := q } = { x with Quantity := q } := by
  have h1 : toValidUTF8 x.Name = x.Name := congrArg BasketItem.Name h
  have h2 : toValidUTF8 x.Description = x.Description := congrArg BasketItem.Description h
  have h3 : toValidUTF8 x.ImageURL = x.ImageURL := congrArg BasketItem.ImageURL h
  simp only [cleanItem, h1, h2, h3]

theorem clean_append_new (items : List BasketItem) (x : BasketItem)
    (h : items.map cleanItem = items) :
    (items ++ [x]).map cleanItem = items ++ [cleanItem x] := by
  simp [h]

theorem clean_split_delete (l r : List BasketItem) (x : BasketItem)
    (h : (l ++ x :: r).map cleanItem = l ++ x :: r) :
    (l ++ r).map cleanItem = l ++ r := by
  rw [clean_iff] at h ⊢
  intro y hy
  rcases List.mem_append.mp hy with hy | hy
  · exact h y (List.mem_append_left _ hy)
  · exact h y (List.mem_append_right _ (List.mem_cons_of_mem _ hy))

theorem clean_split_set (l r : List BasketItem) (x : BasketItem) (q : Int)
    (h : (l ++ x :: r).map cleanItem = l ++ x :: r) :
    (l ++ { x with Quantity := q } :: r).map cleanItem = l ++ { x with Quantity := q } :: r := by
  rw [clean_iff] at h ⊢
  intro y hy
  rcases List.mem_append.mp hy with hy | hy
  · exact h y (List.mem_append_left _ hy)
  · rcases List.mem_cons.mp hy with rfl | hy
    · exact cleanItem_with_quantity x q
        (h x (List.mem_append_right _ (List.mem_cons_self _ _)))
    · exact h y (List.mem_append_right _ (List.mem_cons_of_mem _ hy))

/-! ## basic facts about the cache client and the repository -/

theorem GetBasket_store (net : Transport) (now : Nat) (s : Store) (userID : GoString) :
    (repository.GetBasket net now s userID).2 = s := by
  unfold repository.GetBasket redisGet
  cases net.getFails
  · cases h : s (repository.key userID) with
    | none => simp
    | some e =>
      cases hv : e.value with
      | encoded b =>
        by_cases hd : decodable b = true <;> simp [hv, jsonUnmarshal, hd]
      | undecodable text => simp [hv, jsonUnmarshal]
  · simp

theorem jsonFinite_touch (b : Basket) (now : Nat) :
    jsonFinite { b with UpdatedAt := now } = jsonFinite b := rfl

theorem SaveBasket_store (net : Transport) (now : Nat) (s : Store) (b : Basket) :
    (repository.SaveBasket net now s b).2 = s ∨
    (repository.SaveBasket net now s b).2 =
      s.set b.UserID { b with UserID := toValidUTF8 b.UserID, Items := b.Items.map cleanItem,
                              UpdatedAt := now } := by
  unfold repository.SaveBasket redisSet jsonMarshal
  by_cases hf : jsonFinite { b with UpdatedAt := now } = true
  · cases net.setFails
    · right
      simp only [hf, if_true, Bool.false_eq_true, if_false]
      rfl
    · left
      simp [hf]
  · left
    simp [hf]

theorem SaveBasket_write (net : Transport) (now : Nat) (s : Store) (b : Basket) :
    (repository.SaveBasket net now s b).2 = s ∨
    ∃ b1 : Basket, b1.Items = b.Items.map cleanItem ∧ b1.Total = b.Total ∧
      (repository.SaveBasket net now s b).2 = s.set b.UserID b1 := by
  rcases SaveBasket_store net now s b with h | h
  · exact Or.inl h
  · exact Or.inr
      ⟨{ b with UserID := toValidUTF8 b.UserID, Items := b.Items.map cleanItem,
                UpdatedAt := now }, rfl, rfl, h⟩

theorem GetBasket_pair (net : Transport) (now : Nat) (s : Store) (userID : GoString) :
    repository.GetBasket net now s userID = ((repository.GetBasket net now s userID).1, s) := by
  have h := GetBasket_store net now s userID
  rcases hg : repository.GetBasket net now s userID with ⟨r, s1⟩
  rw [hg] at h
  simp only at h
  rw [h]

/-! ## the scan and the slice updates -/

theorem findItem_eq_none (p : Nat) (items : List BasketItem) :
    repository.findItem p items = none ↔ ∀ x ∈ items, x.ProductID ≠ p := by
  induction items with
  | nil => simp [repository.findItem]
  | cons x xs ih =>
    by_cases hx : x.ProductID = p
    · simp [repository.findItem, hx]
    · simp [repository.findItem, hx, ih]

/-- A successful scan splits the items around the first match. -/
theorem findItem_eq_some (p : Nat) (items : List BasketItem) (i : Nat)
    (h : repository.findItem p items = some i) :
    ∃ l x r, items = l ++ x :: r ∧ l.length = i ∧ x.ProductID = p ∧
      ∀ y ∈ l, y.ProductID ≠ p := by
  induction items generalizing i with
  | nil => simp [repository.findItem] at h
  | cons a as ih =>
    by_cases ha : a.ProductID = p
    · simp [repository.findItem, ha] at h
      exact ⟨[], a, as, rfl, by simpa using h, ha, by simp⟩
    · simp only [repository.findItem, ha, if_false, Option.map_eq_some'] at h
      obtain ⟨j, hj, hji⟩ := h
      obtain ⟨l, x, r, hl, hlen, hx, hall⟩ := ih j hj
      refine ⟨a :: l, x, r, by simp [hl], by simp [hlen, hji], hx, ?_⟩
      intro y hy
      rcases List.mem_cons.mp hy with rfl | hy
      · exact ha
      · exact hall y hy

theorem findItem_split (p : Nat) (l r : List BasketItem) (x : BasketItem)
    (hl : ∀ y ∈ l, y.ProductID ≠ p) (hx : x.ProductID = p) :
    repository.findItem p (l ++ x :: r) = some l.length := by
  induction l with
  | nil => simp [repository.findItem, hx]
  | cons a as ih =>
    have ha : a.ProductID ≠ p := hl a (List.mem_cons_self _ _)
    have := ih (fun y hy => hl y (List.mem_cons_of_mem _ hy))
    simp [repository.findItem, ha, this]

theorem findItem_of_mem (p : Nat) (items : List BasketItem)
    (h : ∃ x ∈ items, x.ProductID = p) :
    ∃ l x r, items = l ++ x :: r ∧ x.ProductID = p ∧ (∀ y ∈ l, y.ProductID ≠ p) ∧
      repository.findItem p items = some l.length := by
  cases hf : repository.findItem p items with
  | none =>
    obtain ⟨x, hx, hxp⟩ := h
    exact absurd hxp ((findItem_eq_none p items).mp hf x hx)
  | some i =>
    obtain ⟨l, x, r, hsplit, hlen, hx, hl⟩ := findItem_eq_some p items i hf
    exact ⟨l, x, r, hsplit, hx, hl, by rw [hlen]⟩

theorem get?_split (l r : List BasketItem) (x : BasketItem) :
    (l ++ x :: r).get? l.length = some x := by
  induction l with
  | nil => rfl
  | cons a as ih => simpa using ih

theorem deleteAt_split (l r : List BasketItem) (x : BasketItem) :
    repository.deleteAt (l ++ x :: r) l.length = l ++ r := by
  simp [repository.deleteAt, List.take_append_eq_append_take, List.drop_append_eq_append_drop]

theorem setQuantityAt_split (l r : List BasketItem) (x : BasketItem) (q : Int) :
    repository.setQuantityAt (l ++ x :: r) l.length q = l ++ { x with Quantity := q } :: r := by
  have hget : (l ++ x :: r).get? l.length = some x := get?_split l r x
  simp only [repository.setQuantityAt, hget]
  simp

theorem addQuantityAt_split (m : IntModel) (l r : List BasketItem) (x : BasketItem) (q : Int) :
    repository.addQuantityAt m (l ++ x :: r) l.length q
      = l ++ { x with Quantity := m.add x.Quantity q } :: r := by
  have hget : (l ++ x :: r).get? l.length = some x := get?_split l r x
  simp only [repository.addQuantityAt, hget]
  simp

/-! ## a call as read, pure update, write -/

theorem exec_eq (m : IntModel) (s : Store) (c : Call) :
    exec m s c =
      match (repository.GetBasket c.net c.now s c.op.userID).1 with
      | .error err => (.error err, s)
      | .ok b =>
        match applyOp m c.op b.Items with
        | none => (.ok (), s)
        | some items =>
          repository.SaveBasket c.net c.now s
            { b with Items := items, Total := repository.calculateTotal items } := by
  unfold exec
  cases hop : c.op with
  | addItem userID item =>
    simp only [Op.userID, repository.AddItem]
    rw [GetBasket_pair]
    cases (repository.GetBasket c.net c.now s userID).1 with
    | error e => rfl
    | ok b =>
      simp only [applyOp]
      cases repository.findItem item.ProductID b.Items <;> rfl
  | removeItem userID productID =>
    simp only [Op.userID, repository.RemoveItem]
    rw [GetBasket_pair]
    cases (repository.GetBasket c.net c.now s userID).1 with
    | error e => rfl
    | ok b =>
      simp only [applyOp]
      cases repository.findItem productID b.Items <;> rfl
  | updateItemQuantity userID productID quantity =>
    simp only [Op.userID, repository.UpdateItemQuantity]
    rw [GetBasket_pair]
    cases (repository.GetBasket c.net c.now s userID).1 with
    | error e => rfl
    | ok b =>
      simp only [applyOp]
      cases repository.findItem productID b.Items <;> rfl

/-- What a mutating call can do to the store: nothing, or one write of a basket
whose total was recomputed from its items. -/
theorem exec_store (m : IntModel) (s : Store) (c : Call) :
    (exec m s c).2 = s ∨
    ∃ (userID : GoString) (b : Basket), b.Total = repository.calculateTotal b.Items ∧
      (exec m s c).2 = s.set userID b := by
  rw [exec_eq]
  cases (repository.GetBasket c.net c.now s c.op.userID).1 with
  | error err => exact Or.inl rfl
  | ok b0 =>
    simp only
    cases applyOp m c.op b0.Items with
    | none => exact Or.inl rfl
    | some items =>
      simp only
      rcases SaveBasket_write c.net c.now s
        { b0 with Items := items, Total := repository.calculateTotal items }
        with hs | ⟨b1, hi, ht, hs⟩
      · exact Or.inl hs
      · exact Or.inr ⟨_, b1, by rw [ht, hi, calculateTotal_clean], hs⟩

/-- A read that succeeds returns the empty cart of the user or a stored record
that JSON can carry. -/
theorem GetBasket_ok (net : Transport) (now : Nat) (s : Store) (userID : GoString) (b : Basket)
    (h : (repository.GetBasket net now s userID).1 = .ok b) :
    (s (repository.key userID) = none ∧ b = freshBasket userID now) ∨
    (decodable b = true ∧
      ∃ e, s (repository.key userID) = some e ∧ e.value = Value.encoded b) := by
  unfold repository.GetBasket redisGet at h
  cases hf : net.getFails
  · simp only [hf] at h
    cases hs : s (repository.key userID) with
    | none =>
      simp [hs] at h
      exact Or.inl ⟨rfl, h.symm⟩
    | some e =>
      simp only [hs, Bool.false_eq_true, if_false] at h
      cases hv : e.value with
      | encoded b1 =>
        by_cases hd : decodable b1 = true
        · simp [hv, jsonUnmarshal, hd] at h
          subst h
          exact Or.inr ⟨hd, e, rfl, hv⟩
        · simp [hv, jsonUnmarshal, hd] at h
      | undecodable text => simp [hv, jsonUnmarshal] at h
  · simp [hf] at h

/-- A property of item sequences that holds of the empty sequence and is carried
from `P` to `Q` by the pure update of a call on the cart it read holds, for every
stored cart, after the call. -/
theorem exec_invariant_read (P Q : List BasketItem → Prop) (m : IntModel) (s : Store) (c : Call)
    (hPQ : ∀ items, P items → Q items) (hnil : P [])
    (hclean : ∀ items, Q items → Q (items.map cleanItem))
    (hstep : ∀ b items1, (repository.GetBasket c.net c.now s c.op.userID).1 = .ok b →
      P b.Items → applyOp m c.op b.Items = some items1 → Q items1)
    (h : ∀ k e b, s k = some e → e.value = Value.encoded b → P b.Items) :
    ∀ k e b, (exec m s c).2 k = some e → e.value = Value.encoded b → Q b.Items := by
  have hQ : ∀ k e b, s k = some e → e.value = Value.encoded b → Q b.Items :=
    fun k e b hk he => hPQ _ (h k e b hk he)
  have hstep1 := hstep
  rw [exec_eq]
  cases hread : (repository.GetBasket c.net c.now s c.op.userID).1 with
  | error err => exact hQ
  | ok b0 =>
    have hP0 : P b0.Items := by
      rcases GetBasket_ok _ _ _ _ _ hread with ⟨-, h0⟩ | ⟨-, e, he, hv⟩
      · rw [h0]; exact hnil
      · exact h _ e b0 he hv
    simp only
    cases hop : applyOp m c.op b0.Items with
    | none => exact hQ
    | some items =>
      simp only
      have hQ1 := hstep1 b0 items hread hP0 hop
      rcases SaveBasket_write c.net c.now s
        { b0 with Items := items, Total := repository.calculateTotal items }
        with hs | ⟨b1, hi, -, hs⟩
      · rw [hs]; exact hQ
      · rw [hs]
        intro k e b hk he
        by_cases hkey : k = repository.key b0.UserID
        · simp only [Store.set, hkey, if_true, Option.some.injEq] at hk
          subst hk
          simp only [Value.encoded.injEq] at he
          subst he
          rw [hi]
          exact hclean _ hQ1
        · simp only [Store.set, hkey, if_false] at hk
          exact hQ k e b hk he

theorem exec_invariant2 (P Q : List BasketItem → Prop) (m : IntModel) (s : Store) (c : Call)
    (hPQ : ∀ items, P items → Q items) (hnil : P [])
    (hclean : ∀ items, Q items → Q (items.map cleanItem))
    (hstep : ∀ items items1, P items → applyOp m c.op items = some items1 → Q items1)
    (h : ∀ k e b, s k = some e → e.value = Value.encoded b → P b.Items) :
    ∀ k e b, (exec m s c).2 k = some e → e.value = Value.encoded b → Q b.Items :=
  exec_invariant_read P Q m s c hPQ hnil hclean
    (fun b items1 _ hP hop => hstep b.Items items1 hP hop) h

theorem exec_invariant (P : List BasketItem → Prop) (m : IntModel) (s : Store) (c : Call)
    (hnil : P []) (hclean : ∀ items, P items → P (items.map cleanItem))
    (hstep : ∀ items items1, P items → applyOp m c.op items = some items1 → P items1)
    (h : ∀ k e b, s k = some e → e.value = Value.encoded b → P b.Items) :
    ∀ k e b, (exec m s c).2 k = some e → e.value = Value.encoded b → P b.Items :=
  exec_invariant2 P P m s c (fun _ hp => hp) hnil hclean hstep h

/-! ## float64 totals -/

theorem F64.isFinite_iff (x : F64) : x.isFinite = true ↔ x = F64.finite x.toRat := by
  cases x <;> simp [F64.isFinite, F64.toRat]

theorem F64.mul_not_finite (p q : F64) (h : p.isFinite = false) :
    (F64.mul p q).isFinite = false := by
  cases p with
  | finite a => simp [F64.isFinite] at h
  | nan => cases q <;> rfl
  | posInf =>
    cases q with
    | finite b =>
      by_cases hb : b = 0 <;> by_cases hpos : 0 < b <;>
        simp [F64.mul, hb, hpos, F64.infOfSign, F64.isFinite]
    | posInf => rfl
    | negInf => rfl
    | nan => rfl
  | negInf =>
    cases q with
    | finite b =>
      by_cases hb : b = 0 <;> by_cases hneg : b < 0 <;>
        simp [F64.mul, hb, hneg, F64.infOfSign, F64.isFinite]
    | posInf => rfl
    | negInf => rfl
    | nan => rfl

theorem F64.add_not_finite_left (a b : F64) (h : a.isFinite = false) :
    (F64.add a b).isFinite = false := by
  cases a <;> cases b <;> simp [F64.isFinite] at h ⊢ <;> rfl

theorem F64.add_not_finite_right (a b : F64) (h : b.isFinite = false) :
    (F64.add a b).isFinite = false := by
  cases a <;> cases b <;> simp [F64.isFinite] at h ⊢ <;> rfl

theorem fold_not_finite (items : List BasketItem) (acc : F64) (h : acc.isFinite = false) :
    (items.foldl
      (fun total item => F64.add total (F64.mul item.Price (F64.ofInt item.Quantity)))
      acc).isFinite = false := by
  induction items generalizing acc with
  | nil => exact h
  | cons x xs ih => exact ih _ (F64.add_not_finite_left _ _ h)

theorem fold_prices_finite (items : List BasketItem) (acc : F64)
    (h : (items.foldl
      (fun total item => F64.add total (F64.mul item.Price (F64.ofInt item.Quantity)))
      acc).isFinite = true) :
    ∀ x ∈ items, x.Price.isFinite = true := by
  induction items generalizing acc with
  | nil => simp
  | cons a as ih =>
    intro x hx
    rcases List.mem_cons.mp hx with rfl | hx
    · by_contra hp
      have hp1 : x.Price.isFinite = false := by simpa using hp
      have := fold_not_finite as _
        (F64.add_not_finite_right acc _ (F64.mul_not_finite _ (F64.ofInt x.Quantity) hp1))
      rw [List.foldl_cons, this] at h
      exact absurd h (by decide)
    · exact ih _ h x hx

/-- A finite total means every price that went into it is finite. -/
theorem calculateTotal_prices_finite (items : List BasketItem)
    (h : (repository.calculateTotal items).isFinite = true) :
    ∀ x ∈ items, x.Price.isFinite = true :=
  fold_prices_finite items _ h

theorem jsonFinite_written (b : Basket) (items : List BasketItem)
    (h : (repository.calculateTotal items).isFinite = true) :
    jsonFinite { b with Items := items, Total := repository.calculateTotal items } = true := by
  simp only [jsonFinite, h, Bool.true_and, List.all_eq_true]
  exact calculateTotal_prices_finite items h

theorem fold_exact (items : List BasketItem) (acc : ℚ) (h : noRounding acc items = true) :
    items.foldl
      (fun total item => F64.add total (F64.mul item.Price (F64.ofInt item.Quantity)))
      (F64.finite acc) = F64.finite (acc + lineSum items) := by
  induction items generalizing acc with
  | nil => simp [lineSum]
  | cons x xs ih =>
    simp only [noRounding, Bool.and_eq_true, decide_eq_true_eq] at h
    obtain ⟨⟨⟨⟨hp, hq⟩, hmul⟩, hadd⟩, hrest⟩ := h
    have hprice := (F64.isFinite_iff x.Price).mp hp
    have hstep : F64.add (F64.finite acc) (F64.mul x.Price (F64.ofInt x.Quantity))
        = F64.finite (acc + x.Price.toRat * (x.Quantity : ℚ)) := by
      rw [hq]
      conv_lhs => rw [hprice]
      simp only [F64.mul, hmul, F64.add, hadd]
    rw [List.foldl_cons, hstep, ih _ hrest]
    simp [lineSum, add_assoc]

/-- When no step rounds, the stored total is the exact sum. -/
theorem calculateTotal_exact (items : List BasketItem) (h : noRounding 0 items = true) :
    repository.calculateTotal items = F64.finite (lineSum items) := by
  unfold repository.calculateTotal
  rw [fold_exact items 0 h]
  simp

/-! ## evaluation on a healthy connection -/

theorem GetBasket_healthy_miss (now : Nat) (s : Store) (userID : GoString)
    (h : s (repository.key userID) = none) :
    repository.GetBasket Transport.healthy now s userID = (.ok (freshBasket userID now), s) := by
  simp [repository.GetBasket, redisGet, Transport.healthy, h, freshBasket]

theorem GetBasket_healthy_hit (now : Nat) (s : Store) (userID : GoString) (b : Basket)
    (ttl : Nat) (h : s (repository.key userID) = some ⟨Value.encoded b, ttl⟩)
    (hd : decodable b = true) :
    repository.GetBasket Transport.healthy now s userID = (.ok b, s) := by
  simp [repository.GetBasket, redisGet, Transport.healthy, h, jsonUnmarshal, hd]

theorem SaveBasket_healthy (now : Nat) (s : Store) (b : Basket) (hfin : jsonFinite b = true) :
    repository.SaveBasket Transport.healthy now s b =
      (.ok (), s.set b.UserID { b with UserID := toValidUTF8 b.UserID,
                                       Items := b.Items.map cleanItem, UpdatedAt := now }) := by
  have hf : jsonFinite { b with UpdatedAt := now } = true := hfin
  simp only [repository.SaveBasket, redisSet, Transport.healthy, jsonMarshal, hf, if_true,
    Bool.false_eq_true, if_false]
  rfl

theorem SaveBasket_unsupported (net : Transport) (now : Nat) (s : Store) (b : Basket)
    (hfin : jsonFinite b = false) :
    repository.SaveBasket net now s b = (.error Error.jsonUnsupportedValue, s) := by
  have hf : jsonFinite { b with UpdatedAt := now } = false := hfin
  simp [repository.SaveBasket, jsonMarshal, hf]

/-- Writing back a replaced item sequence on a healthy connection. -/
theorem save_items_healthy (now : Nat) (s : Store) (b : Basket) (items : List BasketItem)
    (h : (repository.calculateTotal items).isFinite = true) :
    repository.SaveBasket Transport.healthy now s
        { b with Items := items, Total := repository.calculateTotal items }
      = (.ok (), s.set b.UserID (b.written items now)) := by
  rw [SaveBasket_healthy now s _ (jsonFinite_written b items h)]
  rfl

/-- Writing back a replaced item sequence whose total is an infinity or NaN. -/
theorem save_items_unsupported (net : Transport) (now : Nat) (s : Store) (b : Basket)
    (items : List BasketItem) (h : (repository.calculateTotal items).isFinite = false) :
    repository.SaveBasket net now s
        { b with Items := items, Total := repository.calculateTotal items }
      = (.error Error.jsonUnsupportedValue, s) := by
  apply SaveBasket_unsupported
  simp [jsonFinite, h]

/-! ## the mutating methods after a successful read -/

theorem AddItem_of_read (m : IntModel) (net : Transport) (now : Nat) (s : Store)
    (userID : GoString) (item : BasketItem) (b : Basket)
    (hread : (repository.GetBasket net now s userID).1 = .ok b) :
    repository.AddItem m net now s userID item =
      match repository.findItem item.ProductID b.Items with
      | some i =>
        repository.SaveBasket net now s
          { b with Items := repository.addQuantityAt m b.Items i item.Quantity,
                   Total := repository.calculateTotal
                     (repository.addQuantityAt m b.Items i item.Quantity) }
      | none =>
        repository.SaveBasket net now s
          { b with Items := b.Items ++ [item],
                   Total := repository.calculateTotal (b.Items ++ [item]) } := by
  unfold repository.AddItem
  rw [GetBasket_pair, hread]

theorem RemoveItem_of_read (net : Transport) (now : Nat) (s : Store)
    (userID : GoString) (productID : Nat) (b : Basket)
    (hread : (repository.GetBasket net now s userID).1 = .ok b) :
    repository.RemoveItem net now s userID productID =
      match repository.findItem productID b.Items with
      | some i =>
        repository.SaveBasket net now s
          { b with Items := repository.deleteAt b.Items i,
                   Total := repository.calculateTotal (repository.deleteAt b.Items i) }
      | none => (.ok (), s) := by
  unfold repository.RemoveItem
  rw [GetBasket_pair, hread]

theorem UpdateItemQuantity_of_read (net : Transport) (now : Nat) (s : Store)
    (userID : GoString) (productID : Nat) (quantity : Int) (b : Basket)
    (hread : (repository.GetBasket net now s userID).1 = .ok b) :
    repository.UpdateItemQuantity net now s userID productID quantity =
      match repository.findItem productID b.Items with
      | some i =>
        repository.SaveBasket net now s
          { b with
            Items := if quantity ≤ 0 then repository.deleteAt b.Items i
              else repository.setQuantityAt b.Items i quantity,
            Total := repository.calculateTotal
              (if quantity ≤ 0 then repository.deleteAt b.Items i
               else repository.setQuantityAt b.Items i quantity) }
      | none => (.ok (), s) := by
  unfold repository.UpdateItemQuantity
  rw [GetBasket_pair, hread]

/-- Appending on a healthy connection: the product is not yet in the cart. -/
theorem AddItem_healthy_append (m : IntModel) (now : Nat) (s : Store)
    (userID : GoString) (item : BasketItem) (b : Basket)
    (hread : (repository.GetBasket Transport.healthy now s userID).1 = .ok b)
    (habsent : ∀ x ∈ b.Items, x.ProductID ≠ item.ProductID)
    (hfin : (repository.calculateTotal (b.Items ++ [item])).isFinite = true) :
    repository.AddItem m Transport.healthy now s userID item =
      (.ok (), s.set b.UserID (b.written (b.Items ++ [item]) now)) := by
  rw [AddItem_of_read m _ now s userID item b hread,
    (findItem_eq_none item.ProductID b.Items).mpr habsent]
  exact save_items_healthy now s b _ hfin

/-- Merging on a healthy connection: the first item with the product id gets the
added quantity, nothing else changes. -/
theorem AddItem_healthy_merge (m : IntModel) (now : Nat) (s : Store)
    (userID : GoString) (item : BasketItem) (b : Basket) (l r : List BasketItem)
    (x : BasketItem)
    (hread : (repository.GetBasket Transport.healthy now s userID).1 = .ok b)
    (hsplit : b.Items = l ++ x :: r) (hl : ∀ y ∈ l, y.ProductID ≠ item.ProductID)
    (hx : x.ProductID = item.ProductID)
    (hfin : (repository.calculateTotal
      (l ++ { x with Quantity := m.add x.Quantity item.Quantity } :: r)).isFinite = true) :
    repository.AddItem m Transport.healthy now s userID item =
      (.ok (), s.set b.UserID
        (b.written (l ++ { x with Quantity := m.add x.Quantity item.Quantity } :: r) now)) := by
  rw [AddItem_of_read m _ now s userID item b hread, hsplit,
    findItem_split item.ProductID l r x hl hx]
  simp only [addQuantityAt_split]
  exact save_items_healthy now s b _ hfin

/-- Removal through `RemoveItem` on a healthy connection. -/
theorem RemoveItem_healthy_delete (now : Nat) (s : Store) (userID : GoString)
    (productID : Nat) (b : Basket) (l r : List BasketItem) (x : BasketItem)
    (hread : (repository.GetBasket Transport.healthy now s userID).1 = .ok b)
    (hsplit : b.Items = l ++ x :: r) (hl : ∀ y ∈ l, y.ProductID ≠ productID)
    (hx : x.ProductID = productID)
    (hfin : (repository.calculateTotal (l ++ r)).isFinite = true) :
    repository.RemoveItem Transport.healthy now s userID productID =
      (.ok (), s.set b.UserID (b.written (l ++ r) now)) := by
  rw [RemoveItem_of_read _ now s userID productID b hread, hsplit,
    findItem_split productID l r x hl hx]
  simp only [deleteAt_split]
  exact save_items_healthy now s b _ hfin

/-- Removal through `UpdateItemQuantity` with a quantity that is not positive, on a
healthy connection. -/
theorem UpdateItemQuantity_healthy_delete (now : Nat) (s : Store) (userID : GoString)
    (productID : Nat) (quantity : Int) (b : Basket) (l r : List BasketItem) (x : BasketItem)
    (hread : (repository.GetBasket Transport.healthy now s userID).1 = .ok b)
    (hsplit : b.Items = l ++ x :: r) (hl : ∀ y ∈ l, y.ProductID ≠ productID)
    (hx : x.ProductID = productID) (hq : quantity ≤ 0)
    (hfin : (repository.calculateTotal (l ++ r)).isFinite = true) :
    repository.UpdateItemQuantity Transport.healthy now s userID productID quantity =
      (.ok (), s.set b.UserID (b.written (l ++ r) now)) := by
  rw [UpdateItemQuantity_of_read _ now s userID productID quantity b hread, hsplit,
    findItem_split productID l r x hl hx]
  simp only [hq, if_true, deleteAt_split]
  exact save_items_healthy now s b _ hfin

/-- Setting a positive quantity through `UpdateItemQuantity` on a healthy
connection. -/
theorem UpdateItemQuantity_healthy_set (now : Nat) (s : Store) (userID : GoString)
    (productID : Nat) (quantity : Int) (b : Basket) (l r : List BasketItem) (x : BasketItem)
    (hread : (repository.GetBasket Transport.healthy now s userID).1 = .ok b)
    (hsplit : b.Items = l ++ x :: r) (hl : ∀ y ∈ l, y.ProductID ≠ productID)
    (hx : x.ProductID = productID) (hq : 1 ≤ quantity)
    (hfin : (repository.calculateTotal
      (l ++ { x with Quantity := quantity } :: r)).isFinite = true) :
    repository.UpdateItemQuantity Transport.healthy now s userID productID quantity =
      (.ok (), s.set b.UserID (b.written (l ++ { x with Quantity := quantity } :: r) now)) := by
  have hpos : ¬ quantity ≤ 0 := by omega
  rw [UpdateItemQuantity_of_read _ now s userID productID quantity b hread, hsplit,
    findItem_split productID l r x hl hx]
  simp only [hpos, if_false, setQuantityAt_split]
  exact save_items_healthy now s b _ hfin

/-! ## what a decoded cart is like -/

theorem decodable_user (b : Basket) (h : decodable b = true) :
    toValidUTF8 b.UserID = b.UserID := by
  simp only [decodable, Bool.and_eq_true, decide_eq_true_eq] at h
  exact h.1.1

theorem decodable_items (b : Basket) (h : decodable b = true) :
    b.Items.map cleanItem = b.Items := by
  simp only [decodable, Bool.and_eq_true, decide_eq_true_eq] at h
  exact h.1.2

theorem decodable_finite (b : Basket) (h : decodable b = true) : jsonFinite b = true := by
  simp only [decodable, Bool.and_eq_true, decide_eq_true_eq] at h
  exact h.2

/-- The record written for a decoded cart whose new items are as JSON carries
them: only items, total and `UpdatedAt` change. -/
theorem written_clean (b : Basket) (items : List BasketItem) (now : Nat)
    (h : decodable b = true) (hc : items.map cleanItem = items) :
    b.written items now =
      { b with Items := items, Total := repository.calculateTotal items, UpdatedAt := now } := by
  simp only [Basket.written, decodable_user b h, hc]

/-- The items of a cart that was read are as JSON carries them. -/
theorem GetBasket_items_clean (net : Transport) (now : Nat) (s : Store) (userID : GoString)
    (b : Basket) (h : (repository.GetBasket net now s userID).1 = .ok b) :
    b.Items.map cleanItem = b.Items := by
  rcases GetBasket_ok net now s userID b h with ⟨-, h0⟩ | ⟨hd, -⟩
  · rw [h0]
    rfl
  · exact decodable_items b hd

/-- The record written for well-formed texts and a finite total decodes. -/
theorem written_decodable (b : Basket) (items : List BasketItem) (now : Nat)
    (hu : toValidUTF8 b.UserID = b.UserID) (hc : items.map cleanItem = items)
    (hfin : (repository.calculateTotal items).isFinite = true) :
    decodable (b.written items now) = true := by
  simp only [decodable, Basket.written, hu, hc, decide_True, Bool.true_and]
  exact jsonFinite_written b _ hfin

/-! ## keys -/

theorem key_injective (u v : GoString) (h : repository.key u = repository.key v) : u = v := by
  unfold repository.key at h
  exact List.append_cancel_left h

theorem set_same (s : Store) (userID : GoString) (b : Basket) :
    (s.set userID b) (repository.key userID) = some ⟨Value.encoded b, ttl24h⟩ := by
  simp [Store.set]

theorem set_other (s : Store) (u v : GoString) (b : Basket) (h : v ≠ u) :
    (s.set u b) (repository.key v) = s (repository.key v) := by
  have hk : repository.key v ≠ repository.key u := fun hk => h (key_injective v u hk)
  simp [Store.set, hk]

theorem put_same (s : Store) (b : Basket) :
    (s.put b) (repository.key b.UserID) = some ⟨Value.encoded b, ttl24h⟩ := by
  simp [Store.put]

theorem put_eq_set (s : Store) (b : Basket) : s.put b = s.set b.UserID b := rfl

/-! ## concrete evaluations shared by several statements -/

/-- The first `AddItem` for a user without a record. -/
theorem AddItem_on_miss (m : IntModel) (now : Nat) (s : Store) (userID : GoString)
    (item : BasketItem) (hmiss : s (repository.key userID) = none)
    (hfin : (repository.calculateTotal [item]).isFinite = true) :
    repository.AddItem m Transport.healthy now s userID item =
      (.ok (), s.set userID
        { UserID := toValidUTF8 userID, Items := [cleanItem item],
          Total := repository.calculateTotal [item], CreatedAt := now, UpdatedAt := now }) :=
  AddItem_healthy_append m now s userID item (freshBasket userID now)
    (congrArg Prod.fst (GetBasket_healthy_miss now s userID hmiss)) (by simp [freshBasket])
    hfin

theorem clean_widgetTwo : cleanItem widgetTwo = widgetTwo := by decide!

theorem clean_widgetFive : cleanItem widgetFive = widgetFive := by decide!

theorem clean_widgetMax : cleanItem widgetMax = widgetMax := by decide!

theorem clean_tenthThree : cleanItem tenthThree = tenthThree := by decide!

theorem clean_grainMany : cleanItem grainMany = grainMany := by decide!

theorem clean_widgetThree : cleanItem widgetThree = widgetThree := by decide!

theorem clean_gadgetOne : cleanItem gadgetOne = gadgetOne := by decide!

theorem decodable_rewrittenCart : decodable rewrittenCart = true := by decide!

theorem decodable_widgetCart : decodable widgetCart = true := by decide!

theorem decodable_widgetGadgetCart : decodable widgetGadgetCart = true := by decide!

theorem decodable_widgetWasherCart : decodable widgetWasherCart = true := by decide!

theorem decodable_offsetCart : decodable offsetCart = true := by decide!

theorem decodable_yachtCart : decodable yachtCart = true := by decide!

theorem decodable_crossedCart : decodable crossedCart = true := by decide!

theorem utf8_u1_valid : toValidUTF8 (utf8 "u1") = utf8 "u1" := by decide

theorem utf8_u2_valid : toValidUTF8 (utf8 "u2") = utf8 "u2" := by decide

theorem userFF_rewritten : toValidUTF8 userFF = replacement := by decide

theorem replacement_valid : toValidUTF8 replacement = replacement := by decide

theorem total_widgetTwo : repository.calculateTotal [widgetTwo] = F64.finite 19 := by decide!

theorem total_widgetFive : repository.calculateTotal [widgetFive] = F64.finite (95 / 2) := by
  decide!

theorem total_tenthThree :
    repository.calculateTotal [tenthThree]
      = F64.finite (1351079888211149 / 4503599627370496) := by decide!

theorem total_grainMany :
    repository.calculateTotal [grainMany] = F64.finite 9007199254740992 := by decide!

theorem total_hugeTwo : repository.calculateTotal [hugeTwo] = F64.posInf := by decide!

/-! ## the total invariant -/

theorem TotalInvariant_exec (m : IntModel) (s : Store) (c : Call) (h : TotalInvariant s) :
    TotalInvariant (exec m s c).2 := by
  rcases exec_store m s c with hs | ⟨u, b, hb, hs⟩
  · rw [hs]; exact h
  · rw [hs]
    intro k e b1 hk he
    by_cases hkey : k = repository.key u
    · simp only [Store.set, hkey, if_true, Option.some.injEq] at hk
      subst hk
      simp only [Value.encoded.injEq] at he
      subst he
      exact hb
    · simp only [Store.set, hkey, if_false] at hk
      exact h k e b1 hk he

theorem TotalInvariant_run (m : IntModel) (cs : List Call) (s : Store) (h : TotalInvariant s) :
    TotalInvariant (run m s cs) := by
  induction cs generalizing s with
  | nil => exact h
  | cons c cs ih => exact ih _ (TotalInvariant_exec m s c h)

/-! ## C1 -/

/-- Counterexample to C1 as stated. Three washers at the `float64` nearest to 0.1
are stored with total 0.30000000000000004, which is not the exact product of that
price and 3; `2 ^ 53 + 1` grains at price 1 are stored with total `2 ^ 53`. -/
theorem stored_total_is_rounded :
    (repository.AddItem IntModel.int64 Transport.healthy 0 emptyStore (utf8 "u1")
        tenthThree).2 (repository.key (utf8 "u1"))
      = some ⟨Value.encoded
          { UserID := utf8 "u1", Items := [tenthThree],
            Total := F64.finite (1351079888211149 / 4503599627370496),
            CreatedAt := 0, UpdatedAt := 0 }, ttl24h⟩ ∧
    lineSum [tenthThree] = 10808639105689191 / 36028797018963968 ∧
    (1351079888211149 / 4503599627370496 : ℚ) ≠ 10808639105689191 / 36028797018963968 ∧
    (repository.AddItem IntModel.int64 Transport.healthy 0 emptyStore (utf8 "u1")
        grainMany).2 (repository.key (utf8 "u1"))
      = some ⟨Value.encoded
          { UserID := utf8 "u1", Items := [grainMany],
            Total := F64.finite 9007199254740992,
            CreatedAt := 0, UpdatedAt := 0 }, ttl24h⟩ ∧
    lineSum [grainMany] = 9007199254740993 := by
  refine ⟨?_, ?_, by norm_num, ?_, ?_⟩
  · rw [AddItem_on_miss IntModel.int64 0 emptyStore (utf8 "u1") tenthThree rfl
      (by rw [total_tenthThree]; rfl)]
    simp only [set_same, utf8_u1_valid, total_tenthThree, clean_tenthThree]
  · simp [lineSum, tenthThree, F64.toRat]
    norm_num
  · rw [AddItem_on_miss IntModel.int64 0 emptyStore (utf8 "u1") grainMany rfl
      (by rw [total_grainMany]; rfl)]
    simp only [set_same, utf8_u1_valid, total_grainMany, clean_grainMany]
  · simp [lineSum, grainMany, F64.toRat]

/-- C1 (total invariant, amended). Starting from the empty store, after any finite
sequence of `AddItem` / `RemoveItem` / `UpdateItemQuantity` calls of the cart
store (any users, items, quantities, clock readings, connection states and
`int` width), every cart record held in the store has the `Total` that the
left-to-right `float64` accumulation of `Price * float64(Quantity)` gives for
its items; that value is the exact sum of `Price * Quantity` whenever no
conversion, product or partial sum had to be rounded. -/
theorem total_recomputed_from_empty (m : IntModel) (cs : List Call) :
    TotalInvariant (run m emptyStore cs) ∧
    ∀ items : List BasketItem, noRounding 0 items = true →
      repository.calculateTotal items = F64.finite (lineSum items) := by
  refine ⟨?_, calculateTotal_exact⟩
  apply TotalInvariant_run
  intro k e b hk
  simp [emptyStore] at hk

/-- Witness for C1: five widgets at 9.5 need no rounding; their total is 47.5. -/
theorem total_recomputed_from_empty_witness :
    repository.calculateTotal [widgetFive] = F64.finite (lineSum [widgetFive]) ∧
    lineSum [widgetFive] = 95 / 2 :=
  ⟨(total_recomputed_from_empty IntModel.int64 []).2 [widgetFive] (by decide!),
   by simp [lineSum, widgetFive, F64.toRat]; norm_num⟩

/-! ## C2 -/

theorem wrapInt64_of_fits (x : Int) (hlo : -2 ^ 63 ≤ x) (hhi : x < 2 ^ 63) : wrapInt64 x = x := by
  unfold wrapInt64
  norm_num at hlo hhi ⊢
  omega

/-- Go `int` addition gives the one value of the `int` range that differs from
the exact sum by a multiple of `2 ^ bits`. -/
theorem IntModel.add_spec (m : IntModel) (a b : Int) :
    (∃ k : Int, m.add a b = a + b + k * 2 ^ m.bits) ∧
    -2 ^ (m.bits - 1) ≤ m.add a b ∧ m.add a b < 2 ^ (m.bits - 1) := by
  cases m
  · refine ⟨⟨-((a + b + 2 ^ 31) / 2 ^ 32), ?_⟩, ?_, ?_⟩ <;>
      simp only [IntModel.add, IntModel.bits, wrapInt] <;> norm_num <;> omega
  · refine ⟨⟨-((a + b + 2 ^ 63) / 2 ^ 64), ?_⟩, ?_, ?_⟩ <;>
      simp only [IntModel.add, IntModel.bits, wrapInt64] <;> norm_num <;> omega

theorem IntModel.add_of_fits (m : IntModel) (a b : Int) (hlo : -2 ^ (m.bits - 1) ≤ a + b)
    (hhi : a + b < 2 ^ (m.bits - 1)) : m.add a b = a + b := by
  cases m
  · simp only [IntModel.add, IntModel.bits, wrapInt] at *
    norm_num at *
    omega
  · simp only [IntModel.add, IntModel.bits, wrapInt64] at *
    norm_num at *
    omega

/-- The store after adding the same product twice to a cart that lacks it. -/
theorem AddItem_twice_store (m : IntModel) (now1 now2 : Nat) (s : Store) (userID : GoString)
    (item1 item2 : BasketItem) (b : Basket)
    (hread : (repository.GetBasket Transport.healthy now1 s userID).1 = .ok b)
    (huser : b.UserID = userID) (hvalid : toValidUTF8 userID = userID)
    (hclean : cleanItem item1 = item1)
    (habsent : ∀ x ∈ b.Items, x.ProductID ≠ item1.ProductID)
    (hsame : item2.ProductID = item1.ProductID)
    (hfin1 : (repository.calculateTotal (b.Items ++ [item1])).isFinite = true)
    (hfin2 : (repository.calculateTotal
      (b.Items ++ [{ item1 with Quantity := m.add item1.Quantity item2.Quantity }])).isFinite
        = true) :
    repository.AddItem m Transport.healthy now1 s userID item1 =
      (.ok (), s.set userID (b.written (b.Items ++ [item1]) now1)) ∧
    repository.AddItem m Transport.healthy now2
        (repository.AddItem m Transport.healthy now1 s userID item1).2 userID item2 =
      (.ok (),
        (s.set userID (b.written (b.Items ++ [item1]) now1)).set userID
          { UserID := userID,
            Items := b.Items ++ [{ item1 with Quantity := m.add item1.Quantity item2.Quantity }],
            Total := repository.calculateTotal
              (b.Items ++ [{ item1 with Quantity := m.add item1.Quantity item2.Quantity }]),
            CreatedAt := b.CreatedAt, UpdatedAt := now2 }) := by
  subst huser
  have hb : b.Items.map cleanItem = b.Items := GetBasket_items_clean _ _ _ _ _ hread
  have hc1 : (b.Items ++ [item1]).map cleanItem = b.Items ++ [item1] := by
    rw [clean_append_new _ _ hb, hclean]
  have hc2 : (b.Items ++ [{ item1 with Quantity := m.add item1.Quantity item2.Quantity }]).map
      cleanItem = b.Items ++ [{ item1 with Quantity := m.add item1.Quantity item2.Quantity }] := by
    rw [clean_append_new _ _ hb, cleanItem_with_quantity item1 _ hclean]
  have h1 := AddItem_healthy_append m now1 s b.UserID item1 b hread habsent hfin1
  refine ⟨h1, ?_⟩
  rw [h1]
  have hdec : decodable (b.written (b.Items ++ [item1]) now1) = true :=
    written_decodable b _ now1 hvalid hc1 hfin1
  have hread2 : (repository.GetBasket Transport.healthy now2
      (s.set b.UserID (b.written (b.Items ++ [item1]) now1)) b.UserID).1
      = .ok (b.written (b.Items ++ [item1]) now1) :=
    congrArg Prod.fst (GetBasket_healthy_hit now2 _ b.UserID _ ttl24h (set_same _ _ _) hdec)
  have hsplit : (b.written (b.Items ++ [item1]) now1).Items = b.Items ++ item1 :: [] := hc1
  have h2 := AddItem_healthy_merge m now2 _ b.UserID item2
    (b.written (b.Items ++ [item1]) now1) b.Items [] item1 hread2 hsplit
    (fun y hy => hsame ▸ habsent y hy) hsame.symm hfin2
  simp only [Basket.written, hvalid, hc2] at h2 ⊢
  exact h2

/-- The first `AddItem` for a user without a record fails when the total is not
finite, and writes nothing. -/
theorem AddItem_on_miss_unsupported (m : IntModel) (net : Transport) (now : Nat) (s : Store)
    (userID : GoString) (item : BasketItem) (hnet : net.getFails = false)
    (hmiss : s (repository.key userID) = none)
    (hinf : (repository.calculateTotal [item]).isFinite = false) :
    repository.AddItem m net now s userID item = (.error Error.jsonUnsupportedValue, s) := by
  have hread : (repository.GetBasket net now s userID).1 = .ok (freshBasket userID now) := by
    simp [repository.GetBasket, redisGet, hnet, hmiss, freshBasket]
  rw [AddItem_of_read m net now s userID item _ hread]
  have hnone : repository.findItem item.ProductID (freshBasket userID now).Items = none := rfl
  rw [hnone]
  exact save_items_unsupported net now s _ _ hinf

/-- The second `AddItem` of product 7 for the user id `0xff`: the record written
by the first one is read under `basket:\xff` and the merged cart is written under
the key of U+FFFD. -/
theorem AddItem_userFF_second :
    repository.AddItem IntModel.int64 Transport.healthy 1
        (emptyStore.set userFF rewrittenCart) userFF widgetThree =
      (.ok (), (emptyStore.set userFF rewrittenCart).set replacement
        { UserID := replacement, Items := [widgetFive], Total := F64.finite (95 / 2),
          CreatedAt := 0, UpdatedAt := 1 }) := by
  have hread : (repository.GetBasket Transport.healthy 1
      (emptyStore.set userFF rewrittenCart) userFF).1 = .ok rewrittenCart :=
    congrArg Prod.fst (GetBasket_healthy_hit 1 _ userFF rewrittenCart ttl24h (set_same _ _ _)
      decodable_rewrittenCart)
  have hq : IntModel.int64.add widgetTwo.Quantity widgetThree.Quantity = 5 := by decide
  have h := AddItem_healthy_merge IntModel.int64 1 _ userFF widgetThree rewrittenCart
    [] [] widgetTwo hread rfl (by simp) rfl (by rw [hq]; exact (by decide! :
      (repository.calculateTotal [widgetFive]).isFinite = true))
  rw [h]
  simp only [Basket.written, hq, List.nil_append]
  have hitem : ({ widgetTwo with Quantity := 5 } : BasketItem) = widgetFive := rfl
  rw [hitem, total_widgetFive]
  rfl

/-- The first `AddItem` of product 7 for the user id `0xff`. -/
theorem AddItem_userFF_first :
    repository.AddItem IntModel.int64 Transport.healthy 0 emptyStore userFF widgetTwo =
      (.ok (), emptyStore.set userFF rewrittenCart) := by
  rw [AddItem_on_miss IntModel.int64 0 emptyStore userFF widgetTwo rfl
    (by rw [total_widgetTwo]; rfl), userFF_rewritten, total_widgetTwo]
  rfl

/-- Counterexample to C2 as stated, in five parts.  (a) Quantities `2 ^ 63 - 1`
and 1 for user "u1": the stored quantity is `-2 ^ 63`, not the sum.  (b) Two and
three widgets for the user id `0xff`: both calls succeed, and the cart stored
under `basket:\xff` still holds two widgets; the merged cart went under the key
of U+FFFD.  (c) Two yachts at `2 ^ 1023` for user "u1": the total is `+Inf`, the
call fails and nothing is stored.  (d) Two and three widgets for user "u1" when
the record under `basket:u1` carries the user id "u2": both calls succeed and
the cart stored for "u1" still has no item.  (e) Two widgets whose name is the
byte `0xff`, then three widgets: the stored name is U+FFFD, not the name of the
first snapshot. -/
theorem merge_law_fails :
    (∃ b2 : Basket,
      (repository.AddItem IntModel.int64 Transport.healthy 1
        (repository.AddItem IntModel.int64 Transport.healthy 0 emptyStore (utf8 "u1")
          widgetMax).2 (utf8 "u1") widgetOne).2 (repository.key (utf8 "u1"))
        = some ⟨Value.encoded b2, ttl24h⟩ ∧
      b2.Items.map BasketItem.Quantity = [-9223372036854775808] ∧
      b2.Items.map BasketItem.Quantity ≠ [widgetMax.Quantity + widgetOne.Quantity]) ∧
    ((repository.AddItem IntModel.int64 Transport.healthy 0 emptyStore userFF widgetTwo).1
        = .ok () ∧
      (repository.AddItem IntModel.int64 Transport.healthy 1
        (repository.AddItem IntModel.int64 Transport.healthy 0 emptyStore userFF widgetTwo).2
          userFF widgetThree).1 = .ok () ∧
      (repository.AddItem IntModel.int64 Transport.healthy 1
        (repository.AddItem IntModel.int64 Transport.healthy 0 emptyStore userFF widgetTwo).2
          userFF widgetThree).2 (repository.key userFF)
        = some ⟨Value.encoded rewrittenCart, ttl24h⟩ ∧
      rewrittenCart.Items.map BasketItem.Quantity = [2]) ∧
    repository.AddItem IntModel.int64 Transport.healthy 0 emptyStore (utf8 "u1") hugeTwo
      = (.error Error.jsonUnsupportedValue, emptyStore) ∧
    ((repository.AddItem IntModel.int64 Transport.healthy 0 crossedStore (utf8 "u1")
        widgetTwo).1 = .ok () ∧
      (repository.AddItem IntModel.int64 Transport.healthy 1
        (repository.AddItem IntModel.int64 Transport.healthy 0 crossedStore (utf8 "u1")
          widgetTwo).2 (utf8 "u1") widgetThree).1 = .ok () ∧
      (repository.AddItem IntModel.int64 Transport.healthy 1
        (repository.AddItem IntModel.int64 Transport.healthy 0 crossedStore (utf8 "u1")
          widgetTwo).2 (utf8 "u1") widgetThree).2 (repository.key (utf8 "u1"))
        = some ⟨Value.encoded crossedCart, ttl24h⟩ ∧
      crossedCart.Items = []) ∧
    ((repository.AddItem IntModel.int64 Transport.healthy 1
        (repository.AddItem IntModel.int64 Transport.healthy 0 emptyStore (utf8 "u1")
          namelessTwo).2 (utf8 "u1") widgetThree).2 (repository.key (utf8 "u1"))
        = some ⟨Value.encoded
            { UserID := utf8 "u1",
              Items := [{ namelessTwo with Name := replacement, Quantity := 5 }],
              Total := F64.finite (95 / 2), CreatedAt := 0, UpdatedAt := 1 }, ttl24h⟩ ∧
      replacement ≠ namelessTwo.Name) := by
  refine ⟨?_, ⟨?_, ?_, ?_, rfl⟩, ?_, ⟨by decide!, by decide!, by decide!, rfl⟩,
    ⟨by decide!, by decide⟩⟩
  · have hq : IntModel.int64.add widgetMax.Quantity widgetOne.Quantity
        = -9223372036854775808 := by decide
    have h := (AddItem_twice_store IntModel.int64 0 1 emptyStore (utf8 "u1") widgetMax widgetOne
      (freshBasket (utf8 "u1") 0) rfl rfl utf8_u1_valid clean_widgetMax
      (by simp [freshBasket]) rfl (by decide!) (by decide!)).2
    rw [h, hq]
    dsimp only
    refine ⟨_, set_same _ _ _, rfl, ?_⟩
    simp [freshBasket, widgetMax, widgetOne]
  · rw [AddItem_userFF_first]
  · rw [AddItem_userFF_first]
    simp only
    rw [AddItem_userFF_second]
  · rw [AddItem_userFF_first]
    simp only
    rw [AddItem_userFF_second]
    simp only
    rw [set_other _ replacement userFF _ (by decide)]
    exact set_same _ _ _
  · exact AddItem_on_miss_unsupported IntModel.int64 Transport.healthy 0 emptyStore (utf8 "u1")
      hugeTwo rfl rfl (by rw [total_hugeTwo]; rfl)

/-- C2 (merge law, amended). Let `userID` and the texts of `item1` be well-formed
UTF-8, let the cart read for `userID` (the stored record, which carries that
user id, or the empty cart when there is no record) contain no item with the
product id of `item1`, let `item2` carry the same product id, and let the two
recomputed totals be finite.  After
`AddItem item1` and then `AddItem item2` on a healthy connection both calls
succeed; the cart stored for the user is the old item sequence followed by one
line item; that line item is the only one with this product id; it has the name,
description, price and image reference of `item1`; its quantity is the value of
the `int` range that differs from `q1 + q2` by a multiple of `2 ^ bits`, hence
`q1 + q2` itself whenever that sum is in the `int` range; the total is the
`float64` accumulation over the stored items. -/
theorem add_same_product_twice (m : IntModel) (now1 now2 : Nat) (s : Store)
    (userID : GoString) (item1 item2 : BasketItem) (b : Basket)
    (hread : (repository.GetBasket Transport.healthy now1 s userID).1 = .ok b)
    (huser : b.UserID = userID) (hvalid : toValidUTF8 userID = userID)
    (hclean : cleanItem item1 = item1)
    (habsent : ∀ x ∈ b.Items, x.ProductID ≠ item1.ProductID)
    (hsame : item2.ProductID = item1.ProductID)
    (hfin1 : (repository.calculateTotal (b.Items ++ [item1])).isFinite = true)
    (hfin2 : (repository.calculateTotal
      (b.Items ++ [{ item1 with Quantity := m.add item1.Quantity item2.Quantity }])).isFinite
        = true) :
    (repository.AddItem m Transport.healthy now1 s userID item1).1 = .ok () ∧
    (repository.AddItem m Transport.healthy now2
      (repository.AddItem m Transport.healthy now1 s userID item1).2 userID item2).1 = .ok () ∧
    ∃ (b2 : Basket) (q : Int),
      (repository.AddItem m Transport.healthy now2
        (repository.AddItem m Transport.healthy now1 s userID item1).2 userID item2).2
          (repository.key userID) = some ⟨Value.encoded b2, ttl24h⟩ ∧
      b2.UserID = userID ∧
      b2.Items = b.Items ++ [{ item1 with Quantity := q }] ∧
      b2.Items.filter (fun x => decide (x.ProductID = item1.ProductID)) =
        [{ item1 with Quantity := q }] ∧
      (∃ k : Int, q = item1.Quantity + item2.Quantity + k * 2 ^ m.bits) ∧
      -2 ^ (m.bits - 1) ≤ q ∧ q < 2 ^ (m.bits - 1) ∧
      (-2 ^ (m.bits - 1) ≤ item1.Quantity + item2.Quantity →
        item1.Quantity + item2.Quantity < 2 ^ (m.bits - 1) →
        q = item1.Quantity + item2.Quantity) ∧
      b2.Total = repository.calculateTotal b2.Items := by
  obtain ⟨h1, h2⟩ := AddItem_twice_store m now1 now2 s userID item1 item2 b hread huser hvalid
    hclean habsent hsame hfin1 hfin2
  obtain ⟨hk, hlo, hhi⟩ := IntModel.add_spec m item1.Quantity item2.Quantity
  refine ⟨by rw [h1], by rw [h2],
    { UserID := userID,
      Items := b.Items ++ [{ item1 with Quantity := m.add item1.Quantity item2.Quantity }],
      Total := repository.calculateTotal
        (b.Items ++ [{ item1 with Quantity := m.add item1.Quantity item2.Quantity }]),
      CreatedAt := b.CreatedAt, UpdatedAt := now2 },
    m.add item1.Quantity item2.Quantity, ?_, ?_, ?_, ?_,
    hk, hlo, hhi, IntModel.add_of_fits m _ _, ?_⟩
  · rw [h2]
    exact set_same _ _ _
  · rfl
  · rfl
  · have hnone : b.Items.filter (fun x => decide (x.ProductID = item1.ProductID)) = [] := by
      rw [List.filter_eq_nil_iff]
      intro x hx
      simpa using habsent x hx
    simp [List.filter_append, hnone]
  · rfl

/-- Witness for C2: user "u1" without a record, product 7 "Widget" at 9.5, two
pieces and then three pieces under another snapshot: one line item, quantity 5,
the first snapshot, total 47.5. -/
theorem add_same_product_twice_witness :
    ∃ b2 : Basket,
      (repository.AddItem IntModel.int64 Transport.healthy 1
        (repository.AddItem IntModel.int64 Transport.healthy 0 emptyStore (utf8 "u1")
          widgetTwo).2 (utf8 "u1") widgetThree).2 (repository.key (utf8 "u1"))
        = some ⟨Value.encoded b2, ttl24h⟩ ∧
      b2.Items = [widgetFive] ∧ b2.Total = F64.finite (95 / 2) := by
  obtain ⟨-, -, b2, q, hstore, -, hitems, -, -, -, -, hfits, htotal⟩ :=
    add_same_product_twice IntModel.int64 0 1 emptyStore (utf8 "u1") widgetTwo widgetThree
      (freshBasket (utf8 "u1") 0) rfl rfl utf8_u1_valid clean_widgetTwo
      (by simp [freshBasket]) rfl (by decide!) (by decide!)
  have hq : q = 5 := hfits (by decide) (by decide)
  subst hq
  have hlist : b2.Items = [widgetFive] := by
    rw [hitems]
    rfl
  exact ⟨b2, hstore, hlist, by rw [htotal, hlist, total_widgetFive]⟩

/-! ## C3 -/

theorem nodup_delete (l r : List BasketItem) (x : BasketItem)
    (h : ((l ++ x :: r).map BasketItem.ProductID).Nodup) :
    ((l ++ r).map BasketItem.ProductID).Nodup := by
  refine List.Nodup.sublist ?_ h
  apply List.Sublist.map
  exact List.Sublist.append (List.Sublist.refl l) (List.sublist_cons_self x r)

theorem applyOp_unique (m : IntModel) (op : Op) (items items1 : List BasketItem)
    (h : (items.map BasketItem.ProductID).Nodup) (hop : applyOp m op items = some items1) :
    (items1.map BasketItem.ProductID).Nodup := by
  cases op with
  | addItem userID item =>
    simp only [applyOp] at hop
    cases hf : repository.findItem item.ProductID items with
    | none =>
      simp only [hf, Option.some.injEq] at hop
      subst hop
      have habsent := (findItem_eq_none _ _).mp hf
      rw [List.map_append, List.nodup_append]
      refine ⟨h, by simp, ?_⟩
      intro a ha hb
      simp only [List.map_cons, List.map_nil, List.mem_singleton] at hb
      obtain ⟨y, hy, hya⟩ := List.mem_map.mp ha
      exact habsent y hy (hya.trans hb)
    | some i =>
      simp only [hf, Option.some.injEq] at hop
      subst hop
      obtain ⟨l, x, r, hsplit, hlen, -, -⟩ := findItem_eq_some _ _ _ hf
      subst hsplit
      subst hlen
      rw [addQuantityAt_split]
      simpa using h
  | removeItem userID productID =>
    simp only [applyOp] at hop
    cases hf : repository.findItem productID items with
    | none => simp [hf] at hop
    | some i =>
      simp only [hf, Option.map_some', Option.some.injEq] at hop
      subst hop
      obtain ⟨l, x, r, hsplit, hlen, -, -⟩ := findItem_eq_some _ _ _ hf
      subst hsplit
      subst hlen
      rw [deleteAt_split]
      exact nodup_delete l r x h
  | updateItemQuantity userID productID quantity =>
    simp only [applyOp] at hop
    cases hf : repository.findItem productID items with
    | none => simp [hf] at hop
    | some i =>
      simp only [hf, Option.map_some', Option.some.injEq] at hop
      subst hop
      obtain ⟨l, x, r, hsplit, hlen, -, -⟩ := findItem_eq_some _ _ _ hf
      subst hsplit
      subst hlen
      by_cases hq : quantity ≤ 0
      · simp only [hq, if_true, deleteAt_split]
        exact nodup_delete l r x h
      · simp only [hq, if_false, setQuantityAt_split]
        simpa using h

/-- C3 (uniqueness invariant). If every stored cart has pairwise distinct product
ids among its items, then after any `AddItem`, `RemoveItem` or
`UpdateItemQuantity` call of the cart store (any user, arguments, clock reading,
connection state and `int` width) every stored cart still has pairwise
distinct product ids; the empty store satisfies the premise. -/
theorem unique_product_ids_preserved (m : IntModel) (s : Store) (c : Call)
    (h : UniqueInvariant s) :
    UniqueInvariant (exec m s c).2 ∧ UniqueInvariant emptyStore := by
  refine ⟨?_, ?_⟩
  · exact exec_invariant (fun items => (items.map BasketItem.ProductID).Nodup) m s c
      (by simp)
      (fun items hP => by
        show ((items.map cleanItem).map BasketItem.ProductID).Nodup
        rw [map_clean_ProductID]
        exact hP)
      (fun items items1 hP hop => applyOp_unique m c.op items items1 hP hop) h
  · intro k e b hk
    simp [emptyStore] at hk

/-- Witness for C3: the store holding the one-item cart of user "u1", and an
`AddItem` of a second product for the same user. -/
theorem unique_product_ids_preserved_witness :
    UniqueInvariant (emptyStore.put widgetCart) ∧
    UniqueInvariant
      (exec IntModel.int64 (emptyStore.put widgetCart)
        ⟨Transport.healthy, 2, Op.addItem (utf8 "u1") gadgetOne⟩).2 := by
  have h : UniqueInvariant (emptyStore.put widgetCart) := by
    intro k e b hk he
    by_cases hkey : k = repository.key widgetCart.UserID
    · simp only [Store.put, hkey, if_true, Option.some.injEq] at hk
      subst hk
      simp only [Value.encoded.injEq] at he
      subst he
      simp [widgetCart]
    · simp [Store.put, hkey, emptyStore] at hk
  exact ⟨h, (unique_product_ids_preserved IntModel.int64 (emptyStore.put widgetCart)
    ⟨Transport.healthy, 2, Op.addItem (utf8 "u1") gadgetOne⟩ h).1⟩

/-! ## C4 -/

/-- `UpdateItemQuantity` and `RemoveItem` fail, and write nothing, when the total
recomputed after the deletion is not finite. -/
theorem delete_unsupported (net : Transport) (now : Nat) (s : Store) (userID : GoString)
    (productID : Nat) (quantity : Int) (b : Basket) (l r : List BasketItem) (x : BasketItem)
    (hread : (repository.GetBasket net now s userID).1 = .ok b)
    (hsplit : b.Items = l ++ x :: r) (hl : ∀ y ∈ l, y.ProductID ≠ productID)
    (hx : x.ProductID = productID) (hq : quantity ≤ 0)
    (hinf : (repository.calculateTotal (l ++ r)).isFinite = false) :
    repository.UpdateItemQuantity net now s userID productID quantity
      = (.error Error.jsonUnsupportedValue, s) ∧
    repository.RemoveItem net now s userID productID
      = (.error Error.jsonUnsupportedValue, s) := by
  constructor
  · rw [UpdateItemQuantity_of_read _ now s userID productID quantity b hread, hsplit,
      findItem_split productID l r x hl hx]
    simp only [hq, if_true, deleteAt_split]
    exact save_items_unsupported net now s b _ hinf
  · rw [RemoveItem_of_read _ now s userID productID b hread, hsplit,
      findItem_split productID l r x hl hx]
    simp only [deleteAt_split]
    exact save_items_unsupported net now s b _ hinf

theorem read_userFF (now : Nat) :
    (repository.GetBasket Transport.healthy now (emptyStore.set userFF rewrittenCart)
      userFF).1 = .ok rewrittenCart :=
  congrArg Prod.fst (GetBasket_healthy_hit now _ userFF rewrittenCart ttl24h (set_same _ _ _)
    decodable_rewrittenCart)

theorem read_put (now : Nat) (s : Store) (b : Basket) (h : decodable b = true) :
    (repository.GetBasket Transport.healthy now (s.put b) b.UserID).1 = .ok b :=
  congrArg Prod.fst (GetBasket_healthy_hit now _ b.UserID b ttl24h (put_same _ _) h)

theorem total_villa_yacht : repository.calculateTotal [villaOne, hugeOne] = F64.posInf := by
  decide!

theorem total_nil : repository.calculateTotal [] = F64.finite 0 := rfl

/-- Counterexample to C4 as stated, in three parts.  (a) The store that the first
`AddItem` for the user id `0xff` leaves holds, under `basket:\xff`, a cart with
product 7; `UpdateItemQuantity 0xff 7 0` succeeds and that cart is still there
with its item, the emptied cart went under the key of U+FFFD.  (b) Removing the
widgets from the cart "five widgets, three washers" stores total
0.30000000000000004, not the exact sum over the remaining item.  (c) Removing
the credit from the cart "villa, credit, yacht" makes the total `+Inf`: the call
fails and the cart keeps its three items. -/
theorem zero_update_fails :
    ((repository.AddItem IntModel.int64 Transport.healthy 0 emptyStore userFF widgetTwo).2
        = emptyStore.set userFF rewrittenCart ∧
      (repository.UpdateItemQuantity Transport.healthy 1 (emptyStore.set userFF rewrittenCart)
        userFF 7 0).1 = .ok () ∧
      (repository.UpdateItemQuantity Transport.healthy 1 (emptyStore.set userFF rewrittenCart)
        userFF 7 0).2 (repository.key userFF) = some ⟨Value.encoded rewrittenCart, ttl24h⟩ ∧
      rewrittenCart.Items = [widgetTwo]) ∧
    ((repository.UpdateItemQuantity Transport.healthy 3 (emptyStore.put widgetWasherCart)
        (utf8 "u1") 7 0).2 (repository.key (utf8 "u1"))
        = some ⟨Value.encoded
            { UserID := utf8 "u1", Items := [tenthThree],
              Total := F64.finite (1351079888211149 / 4503599627370496),
              CreatedAt := 0, UpdatedAt := 3 }, ttl24h⟩ ∧
      lineSum [tenthThree] = 10808639105689191 / 36028797018963968 ∧
      (1351079888211149 / 4503599627370496 : ℚ) ≠ 10808639105689191 / 36028797018963968) ∧
    repository.UpdateItemQuantity Transport.healthy 4 (emptyStore.put offsetCart)
        (utf8 "u1") 7 0
      = (.error Error.jsonUnsupportedValue, emptyStore.put offsetCart) := by
  refine ⟨⟨?_, ?_, ?_, rfl⟩, ⟨?_, ?_, by norm_num⟩, ?_⟩
  · rw [AddItem_userFF_first]
  · rw [UpdateItemQuantity_healthy_delete 1 _ userFF 7 0 rewrittenCart [] [] widgetTwo
      (read_userFF 1) rfl (by simp) rfl (le_refl 0) rfl]
  · rw [UpdateItemQuantity_healthy_delete 1 _ userFF 7 0 rewrittenCart [] [] widgetTwo
      (read_userFF 1) rfl (by simp) rfl (le_refl 0) rfl]
    dsimp only
    rw [show rewrittenCart.UserID = replacement from rfl,
      set_other _ replacement userFF _ (by decide)]
    exact set_same _ _ _
  · rw [UpdateItemQuantity_healthy_delete 3 _ (utf8 "u1") 7 0 widgetWasherCart [] [tenthThree]
      widgetFive (read_put 3 emptyStore widgetWasherCart decodable_widgetWasherCart) rfl
      (by simp) rfl (le_refl 0) (by rw [List.nil_append, total_tenthThree]; rfl)]
    dsimp only
    rw [show widgetWasherCart.UserID = utf8 "u1" from rfl, set_same,
      written_clean _ _ _ decodable_widgetWasherCart (by decide!), List.nil_append,
      total_tenthThree]
    rfl
  · simp [lineSum, tenthThree, F64.toRat]
    norm_num
  · exact (delete_unsupported Transport.healthy 4 _ (utf8 "u1") 7 0 offsetCart [villaOne]
      [hugeOne] creditOne (read_put 4 emptyStore offsetCart decodable_offsetCart) rfl
      (by simp [villaOne]) rfl (le_refl 0) (by
        rw [show [villaOne] ++ [hugeOne] = [villaOne, hugeOne] from rfl, total_villa_yacht]
        rfl)).1

/-- C4 (zero-quantity removal, amended). For every stored cart of a user (a
record under `basket:{userID}` that decodes and carries that user id) that
contains an item with product id `productID`, and whose total recomputed without
the first such item is finite, `UpdateItemQuantity userID productID 0` on a
healthy connection succeeds, and the stored cart afterwards has exactly one item
fewer: the first item with that product id is gone, the remaining items are
unchanged and in order, and the total is the `float64` accumulation of
`Price * float64(Quantity)` over the remaining items, which is their exact sum
whenever no step of it rounds. -/
theorem update_to_zero_removes (now : Nat) (s : Store) (userID : GoString) (productID : Nat)
    (b : Basket) (ttl : Nat)
    (hstored : s (repository.key userID) = some ⟨Value.encoded b, ttl⟩)
    (hdec : decodable b = true)
    (huser : b.UserID = userID)
    (hmem : ∃ x ∈ b.Items, x.ProductID = productID)
    (hfin : ∀ i, repository.findItem productID b.Items = some i →
      (repository.calculateTotal (repository.deleteAt b.Items i)).isFinite = true) :
    (repository.UpdateItemQuantity Transport.healthy now s userID productID 0).1 = .ok () ∧
    ∃ b1 : Basket, ∃ l r : List BasketItem, ∃ x : BasketItem,
      (repository.UpdateItemQuantity Transport.healthy now s userID productID 0).2
        (repository.key userID) = some ⟨Value.encoded b1, ttl24h⟩ ∧
      b1.Items.length + 1 = b.Items.length ∧
      b.Items = l ++ x :: r ∧ x.ProductID = productID ∧ (∀ y ∈ l, y.ProductID ≠ productID) ∧
      b1.Items = l ++ r ∧
      b1.Total = repository.calculateTotal b1.Items ∧
      (noRounding 0 b1.Items = true → b1.Total = F64.finite (lineSum b1.Items)) ∧
      b1.UserID = b.UserID ∧ b1.CreatedAt = b.CreatedAt := by
  obtain ⟨l, x, r, hsplit, hx, hl, hfind⟩ := findItem_of_mem productID b.Items hmem
  have hfin1 : (repository.calculateTotal (l ++ r)).isFinite = true := by
    have := hfin _ hfind
    rwa [hsplit, deleteAt_split] at this
  have hread := congrArg Prod.fst (GetBasket_healthy_hit now s userID b ttl hstored hdec)
  have hc : (l ++ r).map cleanItem = l ++ r :=
    clean_split_delete l r x (hsplit ▸ decodable_items b hdec)
  rw [UpdateItemQuantity_healthy_delete now s userID productID 0 b l r x hread hsplit hl hx
    (le_refl 0) hfin1, written_clean b _ _ hdec hc]
  refine ⟨rfl, { b with Items := l ++ r, Total := repository.calculateTotal (l ++ r),
                        UpdatedAt := now },
    l, r, x, ?_, ?_, hsplit, hx, hl, rfl, rfl, calculateTotal_exact (l ++ r), rfl, rfl⟩
  · dsimp only
    rw [huser]
    exact set_same _ _ _
  · simp [hsplit]
    omega

/-- Witness for C4: the five-widget cart of user "u1"; updating product 7 to
quantity 0 leaves an empty item sequence and total 0. -/
theorem update_to_zero_removes_witness :
    ∃ b1 : Basket,
      (repository.UpdateItemQuantity Transport.healthy 2 (emptyStore.put widgetCart)
        (utf8 "u1") 7 0).2 (repository.key (utf8 "u1")) = some ⟨Value.encoded b1, ttl24h⟩ ∧
      b1.Items = [] ∧ b1.Total = F64.finite 0 := by
  obtain ⟨-, b1, l, r, x, hstore, hlen, -, -, -, -, htotal, -, -, -⟩ :=
    update_to_zero_removes 2 (emptyStore.put widgetCart) (utf8 "u1") 7 widgetCart ttl24h
      (put_same _ _) decodable_widgetCart rfl ⟨_, List.mem_singleton.mpr rfl, rfl⟩
      (by
        intro i hi
        have h0 : i = 0 := by
          have : repository.findItem 7 widgetCart.Items = some 0 := rfl
          rw [this] at hi
          exact (Option.some.inj hi).symm
        subst h0
        rfl)
  have hnil : b1.Items = [] := by
    simpa [widgetCart] using hlen
  refine ⟨b1, hstore, hnil, ?_⟩
  rw [htotal, hnil]
  rfl

/-! ## C5 -/

/-- C5 (atomic lookup failure). For every store, user, product id and quantity
(and every clock reading, connection state and `int` width): if the product
lookup fails, `basketService.AddItem` returns an error, the one that wraps the
lookup error, and the store is exactly the store before the call. -/
theorem add_item_lookup_failure (client : ProductClient) (m : IntModel) (net : Transport)
    (now : Nat) (s : Store) (userID : GoString) (productID : Nat) (quantity : Int)
    (err : Error) (hfail : client (uint32 productID) = .error err) :
    (service.AddItem client m net now s userID productID quantity).1
      = .error (Error.failedToGetProduct err) ∧
    (service.AddItem client m net now s userID productID quantity).2 = s := by
  unfold service.AddItem
  rw [hfail]
  exact ⟨rfl, rfl⟩

/-- Witness for C5: product 999 is unknown to the catalog; the five-widget cart of
user "u1" stays as it is. -/
theorem add_item_lookup_failure_witness :
    (service.AddItem failingClient IntModel.int64 Transport.healthy 2
        (emptyStore.put widgetCart) (utf8 "u1") 999 1).1
      = .error (Error.failedToGetProduct (Error.rpc "product not found")) ∧
    (service.AddItem failingClient IntModel.int64 Transport.healthy 2
        (emptyStore.put widgetCart) (utf8 "u1") 999 1).2 = emptyStore.put widgetCart :=
  add_item_lookup_failure failingClient IntModel.int64 Transport.healthy 2
    (emptyStore.put widgetCart) (utf8 "u1") 999 1 (Error.rpc "product not found") rfl

/-! ## C6 -/

/-- Counterexample to C6 as stated: `basketService.AddItem` with quantity 0 and a
successful lookup returns no error and creates a record with a zero-quantity line
item for a user who had none. -/
theorem service_add_item_accepts_zero :
    (service.AddItem catalogClient IntModel.int64 Transport.healthy 0 emptyStore (utf8 "u1")
      7 0).1 = .ok () ∧
    (service.AddItem catalogClient IntModel.int64 Transport.healthy 0 emptyStore (utf8 "u1")
      7 0).2 (repository.key (utf8 "u1"))
      = some ⟨Value.encoded
          { UserID := utf8 "u1",
            Items := [{ ProductID := 7, Name := utf8 "Widget", Description := utf8 "A widget",
                        Price := F64.finite (19 / 2), ImageURL := utf8 "widget.png",
                        Quantity := 0 }],
            Total := F64.finite 0, CreatedAt := 0, UpdatedAt := 0 }, ttl24h⟩ ∧
    emptyStore (repository.key (utf8 "u1")) = none :=
  ⟨by decide!, by decide!, rfl⟩

/-- C6 (quantity validation, amended). The quantity is checked by the request
handler, not by the cart manager.  For every store, user, product and connection
state: the handler of add-item with a decoded quantity below 1, and the handler
of update-quantity with a decoded quantity below 0, answer 400 and leave the
store as it was; the answer does not depend on the connection, so the store is
not accessed.  The cart manager itself adds no check: `UpdateItemQuantity`
returns what the store method returns, and `AddItem` after a successful lookup
returns what the store method returns for the item built from the descriptor. -/
theorem quantity_validated_by_handler (client : ProductClient) (m : IntModel) (net : Transport)
    (now : Nat) (s : Store) (userID : GoString) (productIDStr : String) (productID : Nat)
    (qAdd qUpdate : Int) (hAdd : qAdd < 1) (hUpdate : qUpdate < 0) :
    handler.AddItem client m net now s userID (some ⟨productID, qAdd⟩) = (400, s) ∧
    handler.UpdateItemQuantity net now s userID productIDStr (some ⟨qUpdate⟩) = (400, s) ∧
    service.UpdateItemQuantity net now s userID productID qUpdate
      = repository.UpdateItemQuantity net now s userID productID qUpdate ∧
    ∀ p : Product, client (uint32 productID) = .ok p →
      service.AddItem client m net now s userID productID qAdd
        = repository.AddItem m net now s userID
            { ProductID := productID, Name := p.Name, Description := p.Description,
              Price := p.Price, ImageURL := p.ImageUrl, Quantity := qAdd } := by
  refine ⟨?_, ?_, rfl, ?_⟩
  · have hmin : handler.minRule 1 qAdd = false := by
      simp only [handler.minRule, decide_eq_false_iff_not]
      omega
    unfold handler.AddItem
    split
    · rfl
    · simp [hmin]
  · have hmin : handler.minRule 0 qUpdate = false := by
      simp only [handler.minRule, decide_eq_false_iff_not]
      omega
    unfold handler.UpdateItemQuantity
    split
    · rfl
    · cases handler.parseUint32 productIDStr with
      | none => rfl
      | some n => simp [hmin]
  · intro p hp
    unfold service.AddItem
    rw [hp]

/-- Witness for C6: quantity 0 on add-item and quantity -1 on update-quantity for
user "u1" and product 7, on the store with the five-widget cart. -/
theorem quantity_validated_by_handler_witness :
    handler.AddItem catalogClient IntModel.int64 Transport.healthy 2
      (emptyStore.put widgetCart) (utf8 "u1") (some ⟨7, 0⟩)
        = (400, emptyStore.put widgetCart) ∧
    handler.UpdateItemQuantity Transport.healthy 2 (emptyStore.put widgetCart) (utf8 "u1") "7"
      (some ⟨-1⟩) = (400, emptyStore.put widgetCart) :=
  have h := quantity_validated_by_handler catalogClient IntModel.int64 Transport.healthy 2
    (emptyStore.put widgetCart) (utf8 "u1") "7" 7 0 (-1) (by decide) (by decide)
  ⟨h.1, h.2.1⟩

/-- The request handler of update-quantity answers 400 to quantity 0 and leaves the
store as it was: the binding rule `required` rejects the zero value, so the
removal branch `quantity <= 0` of the cart store is not reached over HTTP. -/
theorem handler_update_rejects_zero (net : Transport) (now : Nat) (s : Store)
    (userID : GoString) (productIDStr : String) :
    handler.UpdateItemQuantity net now s userID productIDStr (some ⟨0⟩) = (400, s) := by
  unfold handler.UpdateItemQuantity
  split
  · rfl
  · cases handler.parseUint32 productIDStr with
    | none => rfl
    | some n => rfl

/-! ## C7 -/

/-- C7 (miss-then-create). For every store and every user with no record under
`basket:{userID}`, on a connection whose reads go through, `GetBasket` of the
cart manager and of the cart store succeeds with a cart that has that user id,
an empty item sequence and total 0, and the store after the call is the store
before it: no record is created for the user. -/
theorem get_on_miss_returns_empty (net : Transport) (now : Nat) (s : Store)
    (userID : GoString)
    (hnet : net.getFails = false) (hmiss : s (repository.key userID) = none) :
    (∃ b : Basket, (service.GetBasket net now s userID).1 = .ok b ∧
      b.UserID = userID ∧ b.Items = [] ∧ b.Total = F64.finite 0) ∧
    (service.GetBasket net now s userID).2 = s ∧
    (service.GetBasket net now s userID).2 (repository.key userID) = none ∧
    repository.GetBasket net now s userID = service.GetBasket net now s userID := by
  have h : repository.GetBasket net now s userID =
      (.ok { UserID := userID, Items := [], Total := F64.finite 0, CreatedAt := now,
             UpdatedAt := now }, s) := by
    simp [repository.GetBasket, redisGet, hnet, hmiss]
  unfold service.GetBasket
  rw [h]
  exact ⟨⟨_, rfl, rfl, rfl, rfl⟩, rfl, hmiss, rfl⟩

/-- Witness for C7: user "u2" on the store that holds only the cart of "u1". -/
theorem get_on_miss_returns_empty_witness :
    (service.GetBasket Transport.healthy 3 (emptyStore.put widgetCart) (utf8 "u2")).2
      = emptyStore.put widgetCart :=
  (get_on_miss_returns_empty Transport.healthy 3 (emptyStore.put widgetCart) (utf8 "u2") rfl
    (by
      rw [put_eq_set, set_other _ _ _ _ (by decide)]
      rfl)).2.1

/-! ## C8 -/

/-- C8 (clear idempotence). For every store and user (record present, absent or
undecodable), on a connection whose deletes and reads go through: `ClearBasket`
succeeds; afterwards `GetBasket` returns the empty cart (no items, total 0) of
that user; a second `ClearBasket` succeeds as well and leaves the store equal to
the store after the first. -/
theorem clear_twice (net : Transport) (now : Nat) (s : Store) (userID : GoString)
    (hdel : net.delFails = false) (hget : net.getFails = false) :
    (service.ClearBasket net s userID).1 = .ok () ∧
    (service.GetBasket net now (service.ClearBasket net s userID).2 userID).1
      = .ok { UserID := userID, Items := [], Total := F64.finite 0, CreatedAt := now,
              UpdatedAt := now } ∧
    (service.ClearBasket net (service.ClearBasket net s userID).2 userID).1 = .ok () ∧
    (service.ClearBasket net (service.ClearBasket net s userID).2 userID).2
      = (service.ClearBasket net s userID).2 := by
  have hclear : ∀ st : Store, service.ClearBasket net st userID =
      (.ok (), fun k => if k = repository.key userID then none else st k) := by
    intro st
    simp [service.ClearBasket, repository.DeleteBasket, redisDel, hdel]
  rw [hclear s]
  refine ⟨rfl, ?_, ?_, ?_⟩
  · simp [service.GetBasket, repository.GetBasket, redisGet, hget]
  · rw [hclear]
  · rw [hclear]
    funext k
    by_cases hk : k = repository.key userID <;> simp [hk]

/-- Witness for C8: clearing the five-widget cart of user "u1" twice. -/
theorem clear_twice_witness :
    (service.ClearBasket Transport.healthy
        (service.ClearBasket Transport.healthy (emptyStore.put widgetCart) (utf8 "u1")).2
          (utf8 "u1")).2
      = (service.ClearBasket Transport.healthy (emptyStore.put widgetCart) (utf8 "u1")).2 :=
  (clear_twice Transport.healthy 3 (emptyStore.put widgetCart) (utf8 "u1") rfl rfl).2.2.2

/-! ## C9 -/

/-- C9 (absent-item no-op). For every store that reads back a cart for the user
(the stored cart, or the empty cart on a miss) in which no item has the given
product id, `RemoveItem` and, for every quantity, `UpdateItemQuantity` return
success and leave the store unchanged: nothing is created or rewritten.  The
same holds through the cart manager. -/
theorem absent_item_is_noop (net : Transport) (now : Nat) (s : Store) (userID : GoString)
    (productID : Nat) (quantity : Int) (b : Basket)
    (hread : (repository.GetBasket net now s userID).1 = .ok b)
    (habsent : ∀ x ∈ b.Items, x.ProductID ≠ productID) :
    repository.RemoveItem net now s userID productID = (.ok (), s) ∧
    repository.UpdateItemQuantity net now s userID productID quantity = (.ok (), s) ∧
    service.RemoveItem net now s userID productID = (.ok (), s) ∧
    service.UpdateItemQuantity net now s userID productID quantity = (.ok (), s) := by
  have hfind := (findItem_eq_none productID b.Items).mpr habsent
  have hremove : repository.RemoveItem net now s userID productID = (.ok (), s) := by
    rw [RemoveItem_of_read net now s userID productID b hread, hfind]
  have hupdate :
      repository.UpdateItemQuantity net now s userID productID quantity = (.ok (), s) := by
    rw [UpdateItemQuantity_of_read net now s userID productID quantity b hread, hfind]
  exact ⟨hremove, hupdate, hremove, hupdate⟩

/-- Witness for C9: product 8 is not in the five-widget cart of user "u1". -/
theorem absent_item_is_noop_witness :
    repository.RemoveItem Transport.healthy 3 (emptyStore.put widgetCart) (utf8 "u1") 8
      = (.ok (), emptyStore.put widgetCart) ∧
    repository.UpdateItemQuantity Transport.healthy 3 (emptyStore.put widgetCart) (utf8 "u1") 8 4
      = (.ok (), emptyStore.put widgetCart) :=
  have h := absent_item_is_noop Transport.healthy 3 (emptyStore.put widgetCart) (utf8 "u1") 8 4
    widgetCart (read_put 3 emptyStore widgetCart decodable_widgetCart)
    (by simp [widgetCart, widgetFive])
  ⟨h.1, h.2.1⟩

/-! ## C10 -/

/-- Counterexample to C10 as stated: under 64-bit `int` the sequence "add
`2 ^ 63 - 1` widgets, add one more", both quantities at least 1, stores the
quantity `-2 ^ 63`. -/
theorem int64_run_stores_negative :
    widgetMax.Quantity ≥ 1 ∧ widgetOne.Quantity ≥ 1 ∧
    ¬ PositiveInvariant (run IntModel.int64 emptyStore
      [⟨Transport.healthy, 0, Op.addItem (utf8 "u1") widgetMax⟩,
       ⟨Transport.healthy, 1, Op.addItem (utf8 "u1") widgetOne⟩]) := by
  refine ⟨by decide, by decide, ?_⟩
  intro h
  have hq : IntModel.int64.add widgetMax.Quantity widgetOne.Quantity
      = -9223372036854775808 := by decide
  have hstore := (AddItem_twice_store IntModel.int64 0 1 emptyStore (utf8 "u1") widgetMax
    widgetOne (freshBasket (utf8 "u1") 0) rfl rfl utf8_u1_valid clean_widgetMax
    (by simp [freshBasket]) rfl (by decide!) (by decide!)).2
  rw [hq] at hstore
  have hrun : run IntModel.int64 emptyStore
      [⟨Transport.healthy, 0, Op.addItem (utf8 "u1") widgetMax⟩,
       ⟨Transport.healthy, 1, Op.addItem (utf8 "u1") widgetOne⟩]
      = (repository.AddItem IntModel.int64 Transport.healthy 1
          (repository.AddItem IntModel.int64 Transport.healthy 0 emptyStore (utf8 "u1")
            widgetMax).2 (utf8 "u1") widgetOne).2 := rfl
  rw [hrun, hstore] at h
  dsimp only at h
  have hpos := h _ _ _ (set_same _ _ _) rfl
    { widgetMax with Quantity := -9223372036854775808 } (by simp [freshBasket])
  exact absurd hpos (by decide)

theorem applyOp_bounded (m : IntModel) (op : Op) (items items1 : List BasketItem)
    (B : Int) (bound : Nat) (hB : 0 ≤ B)
    (hadd : op.addsAtLeastOne) (hmost : op.quantityAtMost bound)
    (hfit : B + bound < 2 ^ (m.bits - 1))
    (h : ∀ x ∈ items, 1 ≤ x.Quantity ∧ x.Quantity ≤ B)
    (hop : applyOp m op items = some items1) :
    ∀ x ∈ items1, 1 ≤ x.Quantity ∧ x.Quantity ≤ B + bound := by
  have hweak : ∀ x ∈ items, 1 ≤ x.Quantity ∧ x.Quantity ≤ B + bound := by
    intro x hx
    have := h x hx
    omega
  cases op with
  | addItem userID item =>
    have hq : 1 ≤ item.Quantity := hadd
    have hq2 : item.Quantity ≤ bound := hmost
    simp only [applyOp] at hop
    cases hf : repository.findItem item.ProductID items with
    | none =>
      simp only [hf, Option.some.injEq] at hop
      subst hop
      intro y hy
      rcases List.mem_append.mp hy with hy | hy
      · exact hweak y hy
      · rw [List.mem_singleton.mp hy]
        omega
    | some i =>
      simp only [hf, Option.some.injEq] at hop
      subst hop
      obtain ⟨l, x, r, hsplit, hlen, -, -⟩ := findItem_eq_some _ _ _ hf
      subst hsplit
      subst hlen
      rw [addQuantityAt_split]
      intro y hy
      rcases List.mem_append.mp hy with hy | hy
      · exact hweak y (List.mem_append_left _ hy)
      · rcases List.mem_cons.mp hy with rfl | hy
        · have hx := h x (List.mem_append_right _ (List.mem_cons_self _ _))
          have hpow : (0 : Int) < 2 ^ (m.bits - 1) := by positivity
          have hexact : m.add x.Quantity item.Quantity = x.Quantity + item.Quantity :=
            IntModel.add_of_fits m _ _ (by omega) (by omega)
          show 1 ≤ m.add x.Quantity item.Quantity ∧ m.add x.Quantity item.Quantity ≤ B + bound
          rw [hexact]
          omega
        · exact hweak y (List.mem_append_right _ (List.mem_cons_of_mem _ hy))
  | removeItem userID productID =>
    simp only [applyOp] at hop
    cases hf : repository.findItem productID items with
    | none => simp [hf] at hop
    | some i =>
      simp only [hf, Option.map_some', Option.some.injEq] at hop
      subst hop
      obtain ⟨l, x, r, hsplit, hlen, -, -⟩ := findItem_eq_some _ _ _ hf
      subst hsplit
      subst hlen
      rw [deleteAt_split]
      intro y hy
      rcases List.mem_append.mp hy with hy | hy
      · exact hweak y (List.mem_append_left _ hy)
      · exact hweak y (List.mem_append_right _ (List.mem_cons_of_mem _ hy))
  | updateItemQuantity userID productID quantity =>
    have hq2 : quantity ≤ bound := hmost
    simp only [applyOp] at hop
    cases hf : repository.findItem productID items with
    | none => simp [hf] at hop
    | some i =>
      simp only [hf, Option.map_some', Option.some.injEq] at hop
      subst hop
      obtain ⟨l, x, r, hsplit, hlen, -, -⟩ := findItem_eq_some _ _ _ hf
      subst hsplit
      subst hlen
      by_cases hq : quantity ≤ 0
      · simp only [hq, if_true, deleteAt_split]
        intro y hy
        rcases List.mem_append.mp hy with hy | hy
        · exact hweak y (List.mem_append_left _ hy)
        · exact hweak y (List.mem_append_right _ (List.mem_cons_of_mem _ hy))
      · simp only [hq, if_false, setQuantityAt_split]
        intro y hy
        rcases List.mem_append.mp hy with hy | hy
        · exact hweak y (List.mem_append_left _ hy)
        · rcases List.mem_cons.mp hy with rfl | hy
          · show 1 ≤ quantity ∧ quantity ≤ B + bound
            omega
          · exact hweak y (List.mem_append_right _ (List.mem_cons_of_mem _ hy))

theorem BoundedInvariant_run (m : IntModel) (bound : Nat) (cs : List Call) (s : Store)
    (B : Int) (hB : 0 ≤ B)
    (hcalls : ∀ c ∈ cs, c.op.addsAtLeastOne ∧ c.op.quantityAtMost bound)
    (hfit : B + (cs.length * bound : Nat) < 2 ^ (m.bits - 1))
    (h : BoundedInvariant B s) :
    PositiveInvariant (run m s cs) := by
  induction cs generalizing s B with
  | nil => exact fun k e b hk he x hx => (h k e b hk he x hx).1
  | cons c cs ih =>
    have hc := hcalls c (List.mem_cons_self _ _)
    have hlen : ((c :: cs).length * bound : Nat) = bound + cs.length * bound := by
      simp [Nat.succ_mul, Nat.add_comm]
    rw [hlen] at hfit
    push_cast at hfit
    have hnn : (0 : Int) ≤ (cs.length : Int) * (bound : Int) := by positivity
    apply ih (exec m s c).2 (B + bound) (by omega)
      (fun d hd => hcalls d (List.mem_cons_of_mem _ hd))
    · push_cast
      omega
    · exact exec_invariant2
        (fun items => ∀ x ∈ items, 1 ≤ x.Quantity ∧ x.Quantity ≤ B)
        (fun items => ∀ x ∈ items, 1 ≤ x.Quantity ∧ x.Quantity ≤ B + bound) m s c
        (fun items hP x hx => by have := hP x hx; omega)
        (by simp)
        (fun items hQ x hx => by
          obtain ⟨y, hy, rfl⟩ := List.mem_map.mp hx
          exact hQ y hy)
        (fun items items1 hP hop =>
          applyOp_bounded m c.op items items1 B bound hB hc.1 hc.2 (by omega) hP hop) h

theorem applyOp_positive (m : IntModel) (s : Store) (c : Call) (b : Basket)
    (items1 : List BasketItem) (hadd : c.op.addsAtLeastOne) (hno : c.noOverflow m s = true)
    (hread : (repository.GetBasket c.net c.now s c.op.userID).1 = .ok b)
    (h : ∀ x ∈ b.Items, 1 ≤ x.Quantity) (hop : applyOp m c.op b.Items = some items1) :
    ∀ x ∈ items1, 1 ≤ x.Quantity := by
  cases hc : c.op with
  | addItem userID item =>
    rw [hc] at hadd hread hop
    have hq : 1 ≤ item.Quantity := hadd
    simp only [Op.userID] at hread
    simp only [Call.noOverflow, hc, hread] at hno
    simp only [applyOp] at hop
    cases hf : repository.findItem item.ProductID b.Items with
    | none =>
      simp only [hf, Option.some.injEq] at hop
      subst hop
      intro y hy
      rcases List.mem_append.mp hy with hy | hy
      · exact h y hy
      · rw [List.mem_singleton.mp hy]
        exact hq
    | some i =>
      simp only [hf, Option.some.injEq] at hop hno
      subst hop
      obtain ⟨l, x, r, hsplit, hlen, -, -⟩ := findItem_eq_some _ _ _ hf
      subst hlen
      rw [hsplit] at hno h ⊢
      rw [get?_split] at hno
      simp only [decide_eq_true_eq] at hno
      rw [addQuantityAt_split]
      intro y hy
      rcases List.mem_append.mp hy with hy | hy
      · exact h y (List.mem_append_left _ hy)
      · rcases List.mem_cons.mp hy with rfl | hy
        · have hx := h x (List.mem_append_right _ (List.mem_cons_self _ _))
          have hpow : (0 : Int) < 2 ^ (m.bits - 1) := by positivity
          have hexact : m.add x.Quantity item.Quantity = x.Quantity + item.Quantity :=
            IntModel.add_of_fits m _ _ (by omega) hno
          show 1 ≤ m.add x.Quantity item.Quantity
          rw [hexact]
          omega
        · exact h y (List.mem_append_right _ (List.mem_cons_of_mem _ hy))
  | removeItem userID productID =>
    rw [hc] at hop
    simp only [applyOp] at hop
    cases hf : repository.findItem productID b.Items with
    | none => simp [hf] at hop
    | some i =>
      simp only [hf, Option.map_some', Option.some.injEq] at hop
      subst hop
      obtain ⟨l, x, r, hsplit, hlen, -, -⟩ := findItem_eq_some _ _ _ hf
      subst hlen
      rw [hsplit] at h ⊢
      rw [deleteAt_split]
      intro y hy
      rcases List.mem_append.mp hy with hy | hy
      · exact h y (List.mem_append_left _ hy)
      · exact h y (List.mem_append_right _ (List.mem_cons_of_mem _ hy))
  | updateItemQuantity userID productID quantity =>
    rw [hc] at hop
    simp only [applyOp] at hop
    cases hf : repository.findItem productID b.Items with
    | none => simp [hf] at hop
    | some i =>
      simp only [hf, Option.map_some', Option.some.injEq] at hop
      subst hop
      obtain ⟨l, x, r, hsplit, hlen, -, -⟩ := findItem_eq_some _ _ _ hf
      subst hlen
      rw [hsplit] at h ⊢
      by_cases hq : quantity ≤ 0
      · simp only [hq, if_true, deleteAt_split]
        intro y hy
        rcases List.mem_append.mp hy with hy | hy
        · exact h y (List.mem_append_left _ hy)
        · exact h y (List.mem_append_right _ (List.mem_cons_of_mem _ hy))
      · simp only [hq, if_false, setQuantityAt_split]
        intro y hy
        rcases List.mem_append.mp hy with hy | hy
        · exact h y (List.mem_append_left _ hy)
        · rcases List.mem_cons.mp hy with rfl | hy
          · show 1 ≤ quantity
            omega
          · exact h y (List.mem_append_right _ (List.mem_cons_of_mem _ hy))

theorem PositiveInvariant_run (m : IntModel) (cs : List Call) (s : Store)
    (hcalls : ∀ c ∈ cs, c.op.addsAtLeastOne) (hno : noOverflowRun m s cs = true)
    (h : PositiveInvariant s) :
    PositiveInvariant (run m s cs) := by
  induction cs generalizing s with
  | nil => exact h
  | cons c cs ih =>
    simp only [noOverflowRun, Bool.and_eq_true] at hno
    apply ih (exec m s c).2 (fun d hd => hcalls d (List.mem_cons_of_mem _ hd)) hno.2
    exact exec_invariant_read
      (fun items => ∀ x ∈ items, 1 ≤ x.Quantity)
      (fun items => ∀ x ∈ items, 1 ≤ x.Quantity) m s c
      (fun items hP => hP)
      (by simp)
      (fun items hQ x hx => by
        obtain ⟨y, hy, rfl⟩ := List.mem_map.mp hx
        exact hQ y hy)
      (fun b items1 hread hP hop =>
        applyOp_positive m s c b items1 (hcalls c (List.mem_cons_self _ _)) hno.1 hread hP hop)
      h

/-- C10 (positive-quantity invariant, amended). Starting from the empty store,
after any finite sequence of `AddItem` calls with quantity at least 1,
`RemoveItem` calls and `UpdateItemQuantity` calls with any integer quantity
(zero and negative included), under any clock readings and connection states,
every line item of every stored cart has quantity at least 1, provided no
`Quantity +=` of the sequence has an exact sum of `2 ^ (bits - 1)` or more.  That
is so, in particular, when every quantity passed is at most `bound` and the
number of calls times `bound` is below `2 ^ (bits - 1)`. -/
theorem positive_quantities_without_overflow (m : IntModel) (cs : List Call)
    (hcalls : ∀ c ∈ cs, c.op.addsAtLeastOne) :
    (noOverflowRun m emptyStore cs = true → PositiveInvariant (run m emptyStore cs)) ∧
    ∀ bound : Nat, (∀ c ∈ cs, c.op.quantityAtMost bound) →
      ((cs.length * bound : Nat) : Int) < 2 ^ (m.bits - 1) →
      PositiveInvariant (run m emptyStore cs) := by
  have hempty : ∀ B : Int, BoundedInvariant B emptyStore := by
    intro B k e b hk
    simp [emptyStore] at hk
  refine ⟨fun hno => PositiveInvariant_run m cs emptyStore hcalls hno ?_, ?_⟩
  · intro k e b hk
    simp [emptyStore] at hk
  · intro bound hmost hfit
    exact BoundedInvariant_run m bound cs emptyStore 0 (le_refl 0)
      (fun c hc => ⟨hcalls c hc, hmost c hc⟩) (by simpa using hfit) (hempty 0)

/-- Witness for C10: add two widgets, add three more, set the quantity to -4. -/
theorem positive_quantities_without_overflow_witness :
    PositiveInvariant (run IntModel.int64 emptyStore
      [⟨Transport.healthy, 0, Op.addItem (utf8 "u1") widgetTwo⟩,
       ⟨Transport.healthy, 1, Op.addItem (utf8 "u1") widgetThree⟩,
       ⟨Transport.healthy, 2, Op.updateItemQuantity (utf8 "u1") 7 (-4)⟩]) :=
  (positive_quantities_without_overflow IntModel.int64 _ (by
    intro c hc
    simp only [List.mem_cons, List.mem_singleton, List.not_mem_nil, or_false] at hc
    rcases hc with rfl | rfl | rfl
    · exact (by decide : (1 : Int) ≤ 2)
    · exact (by decide : (1 : Int) ≤ 3)
    · exact trivial)).1 (by decide!)

/-! ## C11 -/

/-- With pairwise distinct product ids, the items after the first match do not
carry the matched id. -/
theorem nodup_tail_free (l r : List BasketItem) (x : BasketItem)
    (h : ((l ++ x :: r).map BasketItem.ProductID).Nodup) :
    ∀ y ∈ r, y.ProductID ≠ x.ProductID := by
  intro y hy heq
  rw [List.map_append, List.map_cons] at h
  have hx := (List.nodup_cons.mp (List.Nodup.of_append_right h)).1
  exact hx (heq ▸ List.mem_map_of_mem BasketItem.ProductID hy)

theorem filter_other_ids (p : Nat) (l r : List BasketItem) (x : BasketItem)
    (hl : ∀ y ∈ l, y.ProductID ≠ p) (hx : x.ProductID = p) (hr : ∀ y ∈ r, y.ProductID ≠ p) :
    (l ++ x :: r).filter (fun y => decide (y.ProductID ≠ p)) = l ++ r := by
  have h1 : l.filter (fun y => decide (y.ProductID ≠ p)) = l :=
    List.filter_eq_self.mpr (fun y hy => by simpa using hl y hy)
  have h2 : r.filter (fun y => decide (y.ProductID ≠ p)) = r :=
    List.filter_eq_self.mpr (fun y hy => by simpa using hr y hy)
  rw [List.filter_append, List.filter_cons, h1, h2]
  simp [hx]

/-- Counterexample to C11 as stated, in three parts.  (a) In the store that the
first `AddItem` for the user id `0xff` leaves, `RemoveItem 0xff 7` succeeds and
the cart under `basket:\xff` still holds product 7.  (b) Removing the widgets
from the cart "five widgets, three washers" stores total 0.30000000000000004,
not the exact sum over the remaining item.  (c) Removing the credit from the cart
"villa, credit, yacht" makes the total `+Inf`: the call fails and the cart keeps
its three items. -/
theorem remove_item_fails :
    ((repository.AddItem IntModel.int64 Transport.healthy 0 emptyStore userFF widgetTwo).2
        = emptyStore.set userFF rewrittenCart ∧
      (repository.RemoveItem Transport.healthy 1 (emptyStore.set userFF rewrittenCart)
        userFF 7).1 = .ok () ∧
      (repository.RemoveItem Transport.healthy 1 (emptyStore.set userFF rewrittenCart)
        userFF 7).2 (repository.key userFF) = some ⟨Value.encoded rewrittenCart, ttl24h⟩ ∧
      rewrittenCart.Items = [widgetTwo]) ∧
    ((repository.RemoveItem Transport.healthy 3 (emptyStore.put widgetWasherCart)
        (utf8 "u1") 7).2 (repository.key (utf8 "u1"))
        = some ⟨Value.encoded
            { UserID := utf8 "u1", Items := [tenthThree],
              Total := F64.finite (1351079888211149 / 4503599627370496),
              CreatedAt := 0, UpdatedAt := 3 }, ttl24h⟩ ∧
      lineSum [tenthThree] = 10808639105689191 / 36028797018963968 ∧
      (1351079888211149 / 4503599627370496 : ℚ) ≠ 10808639105689191 / 36028797018963968) ∧
    repository.RemoveItem Transport.healthy 4 (emptyStore.put offsetCart) (utf8 "u1") 7
      = (.error Error.jsonUnsupportedValue, emptyStore.put offsetCart) := by
  refine ⟨⟨?_, ?_, ?_, rfl⟩, ⟨?_, ?_, by norm_num⟩, ?_⟩
  · rw [AddItem_userFF_first]
  · rw [RemoveItem_healthy_delete 1 _ userFF 7 rewrittenCart [] [] widgetTwo
      (read_userFF 1) rfl (by simp) rfl rfl]
  · rw [RemoveItem_healthy_delete 1 _ userFF 7 rewrittenCart [] [] widgetTwo
      (read_userFF 1) rfl (by simp) rfl rfl]
    dsimp only
    rw [show rewrittenCart.UserID = replacement from rfl,
      set_other _ replacement userFF _ (by decide)]
    exact set_same _ _ _
  · rw [RemoveItem_healthy_delete 3 _ (utf8 "u1") 7 widgetWasherCart [] [tenthThree]
      widgetFive (read_put 3 emptyStore widgetWasherCart decodable_widgetWasherCart) rfl
      (by simp) rfl (by rw [List.nil_append, total_tenthThree]; rfl)]
    dsimp only
    rw [show widgetWasherCart.UserID = utf8 "u1" from rfl, set_same,
      written_clean _ _ _ decodable_widgetWasherCart (by decide!), List.nil_append,
      total_tenthThree]
    rfl
  · simp [lineSum, tenthThree, F64.toRat]
    norm_num
  · exact (delete_unsupported Transport.healthy 4 _ (utf8 "u1") 7 0 offsetCart [villaOne]
      [hugeOne] creditOne (read_put 4 emptyStore offsetCart decodable_offsetCart) rfl
      (by simp [villaOne]) rfl (le_refl 0) (by
        rw [show [villaOne] ++ [hugeOne] = [villaOne, hugeOne] from rfl, total_villa_yacht]
        rfl)).2

/-- C11 (postcondition of `RemoveItem`, amended). For every stored cart of a user
(a record under `basket:{userID}` that decodes and carries that user id) whose
product ids are pairwise distinct, which contains an item with product id
`productID`, and whose total recomputed without that item is finite,
`RemoveItem userID productID` on a healthy connection succeeds, and the stored
item sequence afterwards is the old sequence with that one item deleted: it is
the old sequence filtered to the other product ids (so every other item is
unchanged and keeps its relative position), it is one item shorter, no item with
`productID` remains, and the total is the `float64` accumulation of
`Price * float64(Quantity)` over the remaining items, which is their exact sum
whenever no step of it rounds. -/
theorem remove_item_postcondition (now : Nat) (s : Store) (userID : GoString)
    (productID : Nat) (b : Basket) (ttl : Nat)
    (hstored : s (repository.key userID) = some ⟨Value.encoded b, ttl⟩)
    (hdec : decodable b = true)
    (huser : b.UserID = userID)
    (hunique : (b.Items.map BasketItem.ProductID).Nodup)
    (hmem : ∃ x ∈ b.Items, x.ProductID = productID)
    (hfin : (repository.calculateTotal
      (b.Items.filter (fun y => decide (y.ProductID ≠ productID)))).isFinite = true) :
    (repository.RemoveItem Transport.healthy now s userID productID).1 = .ok () ∧
    ∃ b1 : Basket,
      (repository.RemoveItem Transport.healthy now s userID productID).2
        (repository.key userID) = some ⟨Value.encoded b1, ttl24h⟩ ∧
      b1.Items = b.Items.filter (fun y => decide (y.ProductID ≠ productID)) ∧
      b1.Items.length + 1 = b.Items.length ∧
      (∀ y ∈ b1.Items, y.ProductID ≠ productID) ∧
      b1.Items.Sublist b.Items ∧
      b1.Total = repository.calculateTotal b1.Items ∧
      (noRounding 0 b1.Items = true → b1.Total = F64.finite (lineSum b1.Items)) ∧
      b1.UserID = b.UserID ∧ b1.CreatedAt = b.CreatedAt := by
  obtain ⟨l, x, r, hsplit, hx, hl, -⟩ := findItem_of_mem productID b.Items hmem
  have hr : ∀ y ∈ r, y.ProductID ≠ productID := by
    have := nodup_tail_free l r x (hsplit ▸ hunique)
    rw [hx] at this
    exact this
  have hfilter := filter_other_ids productID l r x hl hx hr
  have hfin1 : (repository.calculateTotal (l ++ r)).isFinite = true := by
    rwa [hsplit, hfilter] at hfin
  have hread := congrArg Prod.fst (GetBasket_healthy_hit now s userID b ttl hstored hdec)
  have hc : (l ++ r).map cleanItem = l ++ r :=
    clean_split_delete l r x (hsplit ▸ decodable_items b hdec)
  rw [RemoveItem_healthy_delete now s userID productID b l r x hread hsplit hl hx hfin1,
    written_clean b _ _ hdec hc]
  refine ⟨rfl, { b with Items := l ++ r, Total := repository.calculateTotal (l ++ r),
                        UpdatedAt := now },
    ?_, ?_, ?_, ?_, ?_, rfl, calculateTotal_exact (l ++ r), rfl, rfl⟩
  · dsimp only
    rw [huser]
    exact set_same _ _ _
  · rw [hsplit, hfilter]
  · simp [hsplit]
    omega
  · intro y hy
    rcases List.mem_append.mp hy with hy | hy
    · exact hl y hy
    · exact hr y hy
  · rw [hsplit]
    exact List.Sublist.append (List.Sublist.refl l) (List.sublist_cons_self x r)

theorem total_gadgetOne : repository.calculateTotal [gadgetOne] = F64.finite 4 := by decide!

/-- Witness for C11: removing product 7 from the cart "five widgets, one gadget"
of user "u1" leaves the gadget alone, total 4. -/
theorem remove_item_postcondition_witness :
    ∃ b1 : Basket,
      (repository.RemoveItem Transport.healthy 3 (emptyStore.put widgetGadgetCart)
        (utf8 "u1") 7).2 (repository.key (utf8 "u1")) = some ⟨Value.encoded b1, ttl24h⟩ ∧
      b1.Items = [gadgetOne] ∧ b1.Total = F64.finite 4 := by
  have hfilter : widgetGadgetCart.Items.filter (fun y => decide (y.ProductID ≠ 7))
      = [gadgetOne] := by decide
  obtain ⟨-, b1, hstore, hitems, -, -, -, htotal, -, -, -⟩ :=
    remove_item_postcondition 3 (emptyStore.put widgetGadgetCart) (utf8 "u1") 7
      widgetGadgetCart ttl24h (put_same _ _) decodable_widgetGadgetCart rfl (by decide)
      ⟨widgetFive, by simp [widgetGadgetCart], rfl⟩
      (by rw [hfilter, total_gadgetOne]; rfl)
  have hlist : b1.Items = [gadgetOne] := by rw [hitems, hfilter]
  exact ⟨b1, hstore, hlist, by rw [htotal, hlist, total_gadgetOne]⟩

/-! ## C12 -/

/-- `UpdateItemQuantity` with a positive quantity fails, and writes nothing, when
the recomputed total is not finite. -/
theorem set_unsupported (net : Transport) (now : Nat) (s : Store) (userID : GoString)
    (productID : Nat) (quantity : Int) (b : Basket) (l r : List BasketItem) (x : BasketItem)
    (hread : (repository.GetBasket net now s userID).1 = .ok b)
    (hsplit : b.Items = l ++ x :: r) (hl : ∀ y ∈ l, y.ProductID ≠ productID)
    (hx : x.ProductID = productID) (hq : 1 ≤ quantity)
    (hinf : (repository.calculateTotal
      (l ++ { x with Quantity := quantity } :: r)).isFinite = false) :
    repository.UpdateItemQuantity net now s userID productID quantity
      = (.error Error.jsonUnsupportedValue, s) := by
  have hpos : ¬ quantity ≤ 0 := by omega
  rw [UpdateItemQuantity_of_read _ now s userID productID quantity b hread, hsplit,
    findItem_split productID l r x hl hx]
  simp only [hpos, if_false, setQuantityAt_split]
  exact save_items_unsupported net now s b _ hinf

theorem total_widgetNine :
    (repository.calculateTotal [{ widgetTwo with Quantity := 9 }]).isFinite = true := by
  decide!

/-- Counterexample to C12 as stated, in two parts.  (a) In the store that the
first `AddItem` for the user id `0xff` leaves, `UpdateItemQuantity 0xff 7 9`
succeeds and the cart under `basket:\xff` still holds product 7 with quantity 2.
(b) In the cart of user "u1" with one yacht at `2 ^ 1023`, setting the quantity
to 2 makes the total `+Inf`: the call fails and the stored quantity stays 1. -/
theorem positive_update_fails :
    ((repository.AddItem IntModel.int64 Transport.healthy 0 emptyStore userFF widgetTwo).2
        = emptyStore.set userFF rewrittenCart ∧
      (service.UpdateItemQuantity Transport.healthy 1 (emptyStore.set userFF rewrittenCart)
        userFF 7 9).1 = .ok () ∧
      (service.UpdateItemQuantity Transport.healthy 1 (emptyStore.set userFF rewrittenCart)
        userFF 7 9).2 (repository.key userFF) = some ⟨Value.encoded rewrittenCart, ttl24h⟩ ∧
      rewrittenCart.Items.map BasketItem.Quantity = [2]) ∧
    service.UpdateItemQuantity Transport.healthy 2 (emptyStore.put yachtCart) (utf8 "u1") 9 2
      = (.error Error.jsonUnsupportedValue, emptyStore.put yachtCart) ∧
    yachtCart.Items.map BasketItem.Quantity = [1] := by
  have hset := UpdateItemQuantity_healthy_set 1 (emptyStore.set userFF rewrittenCart) userFF 7 9
    rewrittenCart [] [] widgetTwo (read_userFF 1) rfl (by simp) rfl (by decide)
    total_widgetNine
  refine ⟨⟨?_, ?_, ?_, rfl⟩, ?_, rfl⟩
  · rw [AddItem_userFF_first]
  · unfold service.UpdateItemQuantity
    rw [hset]
  · unfold service.UpdateItemQuantity
    rw [hset]
    dsimp only
    rw [show rewrittenCart.UserID = replacement from rfl,
      set_other _ replacement userFF _ (by decide)]
    exact set_same _ _ _
  · exact set_unsupported Transport.healthy 2 _ (utf8 "u1") 9 2 yachtCart [] [] hugeOne
      (read_put 2 emptyStore yachtCart decodable_yachtCart) rfl (by simp) rfl (by decide)
      (by
        rw [show ([] ++ [{ hugeOne with Quantity := 2 }] : List BasketItem) = [hugeTwo] from rfl,
          total_hugeTwo]
        rfl)

/-- C12 (a positive `UpdateItemQuantity` changes only the quantity, amended). For
every stored cart of a user (a record under `basket:{userID}` that decodes and
carries that user id) that contains an item with product id `productID`, and
every quantity at least 1 for which the recomputed total is finite,
`UpdateItemQuantity` of the cart manager, which takes no product client and so
cannot consult the catalog, succeeds on a healthy connection, and the stored cart
afterwards has the same number of items with the same product ids in the same
order; the item the scan finds for `productID` has the new quantity and its old
name, description, price and image reference; every other item is unchanged;
`UserID` and `CreatedAt` of the cart are unchanged; with pairwise distinct
product ids that item is the only one with `productID`. -/
theorem update_positive_sets_quantity_only (now : Nat) (s : Store) (userID : GoString)
    (productID : Nat) (quantity : Int) (b : Basket) (ttl : Nat)
    (hstored : s (repository.key userID) = some ⟨Value.encoded b, ttl⟩)
    (hdec : decodable b = true)
    (huser : b.UserID = userID)
    (hmem : ∃ x ∈ b.Items, x.ProductID = productID)
    (hq : 1 ≤ quantity)
    (hfin : ∀ i, repository.findItem productID b.Items = some i →
      (repository.calculateTotal (repository.setQuantityAt b.Items i quantity)).isFinite
        = true) :
    (service.UpdateItemQuantity Transport.healthy now s userID productID quantity).1 = .ok () ∧
    ∃ b1 : Basket, ∃ l r : List BasketItem, ∃ x : BasketItem,
      (service.UpdateItemQuantity Transport.healthy now s userID productID quantity).2
        (repository.key userID) = some ⟨Value.encoded b1, ttl24h⟩ ∧
      b.Items = l ++ x :: r ∧ x.ProductID = productID ∧ (∀ y ∈ l, y.ProductID ≠ productID) ∧
      b1.Items = l ++ { x with Quantity := quantity } :: r ∧
      b1.Items.length = b.Items.length ∧
      b1.Items.map BasketItem.ProductID = b.Items.map BasketItem.ProductID ∧
      b1.UserID = b.UserID ∧ b1.CreatedAt = b.CreatedAt ∧
      b1.Total = repository.calculateTotal b1.Items ∧
      ((b.Items.map BasketItem.ProductID).Nodup →
        ∀ y ∈ b1.Items, y.ProductID = productID → y = { x with Quantity := quantity }) := by
  obtain ⟨l, x, r, hsplit, hx, hl, hfind⟩ := findItem_of_mem productID b.Items hmem
  have hfin1 : (repository.calculateTotal
      (l ++ { x with Quantity := quantity } :: r)).isFinite = true := by
    have := hfin _ hfind
    rwa [hsplit, setQuantityAt_split] at this
  have hread := congrArg Prod.fst (GetBasket_healthy_hit now s userID b ttl hstored hdec)
  have hc : (l ++ { x with Quantity := quantity } :: r).map cleanItem
      = l ++ { x with Quantity := quantity } :: r :=
    clean_split_set l r x quantity (hsplit ▸ decodable_items b hdec)
  unfold service.UpdateItemQuantity
  rw [UpdateItemQuantity_healthy_set now s userID productID quantity b l r x hread hsplit hl hx
    hq hfin1, written_clean b _ _ hdec hc]
  refine ⟨rfl, { b with Items := l ++ { x with Quantity := quantity } :: r,
                        Total := repository.calculateTotal
                          (l ++ { x with Quantity := quantity } :: r),
                        UpdatedAt := now },
    l, r, x, ?_, hsplit, hx, hl, rfl, ?_, ?_, rfl, rfl, rfl, ?_⟩
  · dsimp only
    rw [huser]
    exact set_same _ _ _
  · simp [hsplit]
  · simp [hsplit]
  · intro hunique y hy hyp
    have hr : ∀ z ∈ r, z.ProductID ≠ productID := by
      have := nodup_tail_free l r x (hsplit ▸ hunique)
      rw [hx] at this
      exact this
    rcases List.mem_append.mp hy with hy | hy
    · exact absurd hyp (hl y hy)
    · rcases List.mem_cons.mp hy with rfl | hy
      · rfl
      · exact absurd hyp (hr y hy)

/-- Witness for C12: in the cart "five widgets, one gadget" of user "u1" the
widget quantity is set to 9; the gadget and the widget snapshot stay. -/
theorem update_positive_sets_quantity_only_witness :
    ∃ b1 : Basket,
      (service.UpdateItemQuantity Transport.healthy 3 (emptyStore.put widgetGadgetCart)
        (utf8 "u1") 7 9).2 (repository.key (utf8 "u1")) = some ⟨Value.encoded b1, ttl24h⟩ ∧
      b1.Items.length = 2 ∧ b1.UserID = utf8 "u1" ∧ b1.CreatedAt = 0 := by
  obtain ⟨-, b1, l, r, x, hstore, -, -, -, -, hlen, -, huser, hcreated, -, -⟩ :=
    update_positive_sets_quantity_only 3 (emptyStore.put widgetGadgetCart) (utf8 "u1") 7 9
      widgetGadgetCart ttl24h (put_same _ _) decodable_widgetGadgetCart rfl
      ⟨widgetFive, by simp [widgetGadgetCart], rfl⟩ (by decide)
      (by
        intro i hi
        have h0 : i = 0 := by
          have : repository.findItem 7 widgetGadgetCart.Items = some 0 := rfl
          rw [this] at hi
          exact (Option.some.inj hi).symm
        subst h0
        exact (by decide! : (repository.calculateTotal
          (repository.setQuantityAt widgetGadgetCart.Items 0 9)).isFinite = true))
  exact ⟨b1, hstore, hlen, huser, hcreated⟩

/-! ## C13 -/

/-- A failed read makes every cart store method return that error with the
store as it was. -/
theorem methods_of_failed_read (m : IntModel) (net : Transport) (now : Nat) (s : Store)
    (userID : GoString) (item : BasketItem) (productID : Nat) (quantity : Int) (err : Error)
    (hread : (repository.GetBasket net now s userID).1 = .error err) :
    repository.GetBasket net now s userID = (.error err, s) ∧
    repository.AddItem m net now s userID item = (.error err, s) ∧
    repository.RemoveItem net now s userID productID = (.error err, s) ∧
    repository.UpdateItemQuantity net now s userID productID quantity = (.error err, s) := by
  have hpair : repository.GetBasket net now s userID = (.error err, s) := by
    rw [GetBasket_pair, hread]
  refine ⟨hpair, ?_, ?_, ?_⟩
  · unfold repository.AddItem
    rw [hpair]
  · unfold repository.RemoveItem
    rw [hpair]
  · unfold repository.UpdateItemQuantity
    rw [hpair]

/-- The read of a value that does not decode, or over a failing connection,
fails. -/
theorem GetBasket_unreadable (net : Transport) (now : Nat) (s : Store) (userID : GoString)
    (hbad : net.getFails = true ∨
      ∃ e err, s (repository.key userID) = some e ∧ jsonUnmarshal e.value = .error err) :
    ∃ err, (repository.GetBasket net now s userID).1 = .error err := by
  cases hf : net.getFails
  · rcases hbad with h | ⟨e, err, h, hj⟩
    · rw [hf] at h
      exact absurd h (by decide)
    · exact ⟨err, by simp [repository.GetBasket, redisGet, hf, h, hj]⟩
  · exact ⟨Error.transport, by simp [repository.GetBasket, redisGet, hf]⟩

/-- C13 (an unreadable record is left untouched). For every user whose value under
`basket:{userID}` does not decode into a cart, or whose cache read fails with a
transport error, each of `GetBasket`, `AddItem`, `RemoveItem` and
`UpdateItemQuantity` of the cart store returns an error and the store after the
call is the store before it: the record is neither rewritten nor deleted.  The
cart manager's `AddItem` then fails as well, whatever the product lookup
answers, and leaves the store as it was. -/
theorem unreadable_record_untouched (client : ProductClient) (m : IntModel) (net : Transport)
    (now : Nat) (s : Store) (userID : GoString) (item : BasketItem) (productID : Nat)
    (quantity : Int)
    (hbad : net.getFails = true ∨
      ∃ e err, s (repository.key userID) = some e ∧ jsonUnmarshal e.value = .error err) :
    ∃ err : Error,
      repository.GetBasket net now s userID = (.error err, s) ∧
      repository.AddItem m net now s userID item = (.error err, s) ∧
      repository.RemoveItem net now s userID productID = (.error err, s) ∧
      repository.UpdateItemQuantity net now s userID productID quantity = (.error err, s) ∧
      ∃ err1 : Error,
        service.AddItem client m net now s userID productID quantity = (.error err1, s) := by
  obtain ⟨err, hread⟩ := GetBasket_unreadable net now s userID hbad
  obtain ⟨h1, h2, h3, h4⟩ :=
    methods_of_failed_read m net now s userID item productID quantity err hread
  refine ⟨err, h1, h2, h3, h4, ?_⟩
  unfold service.AddItem
  cases client (uint32 productID) with
  | error e => exact ⟨_, rfl⟩
  | ok p =>
    exact ⟨err, (methods_of_failed_read m net now s userID _ productID quantity err hread).2.1⟩

/-- Witness for C13: the value under the key of user "u1" is not a cart; adding
two widgets fails with the decoding error and the store keeps the value. -/
theorem unreadable_record_untouched_witness :
    ∃ err : Error,
      repository.AddItem IntModel.int64 Transport.healthy 1 corruptStore (utf8 "u1") widgetTwo
        = (.error err, corruptStore) := by
  obtain ⟨err, -, hadd, -, -, -⟩ :=
    unreadable_record_untouched catalogClient IntModel.int64 Transport.healthy 1 corruptStore
      (utf8 "u1") widgetTwo 7 2
      (Or.inr ⟨⟨Value.undecodable "\x7bnot json", ttl24h⟩, Error.jsonSyntax,
        by simp [corruptStore], rfl⟩)
  exact ⟨err, hadd⟩

/-! ## C14 -/

/-- Below `2 ^ 32` the conversion `uint32` keeps the product id, so the lookup is
made for the requested id. -/
theorem uint32_of_small (productID : Nat) (h : productID < 2 ^ 32) :
    uint32 productID = productID := by
  unfold uint32
  exact Nat.mod_eq_of_lt h

/-- From `2 ^ 32` on the conversion `uint32` never keeps the product id. -/
theorem uint32_of_large (productID : Nat) (h : 2 ^ 32 ≤ productID) :
    uint32 productID ≠ productID := by
  unfold uint32
  have := Nat.mod_lt productID (show 0 < 2 ^ 32 by decide)
  omega

/-- C14 (the lookup id at product id `2 ^ 32 + 7`). `basketService.AddItem` for
product id 4294967303 asks the catalog for product 7, not for 4294967303, which
the catalog does not know; the call succeeds and stores a line item with product
id 4294967303 that carries the name, description, price and image reference of
product 7.  The request handler accepts the same input with status 200. -/
theorem add_item_looks_up_truncated_id :
    uint32 4294967303 = 7 ∧
    catalogClient 4294967303 = .error (Error.rpc "product not found") ∧
    (service.AddItem catalogClient IntModel.int64 Transport.healthy 0 emptyStore (utf8 "u1")
      4294967303 1).1 = .ok () ∧
    (service.AddItem catalogClient IntModel.int64 Transport.healthy 0 emptyStore (utf8 "u1")
      4294967303 1).2 (repository.key (utf8 "u1"))
      = some ⟨Value.encoded
          { UserID := utf8 "u1",
            Items := [{ ProductID := 4294967303, Name := utf8 "Widget",
                        Description := utf8 "A widget", Price := F64.finite (19 / 2),
                        ImageURL := utf8 "widget.png", Quantity := 1 }],
            Total := F64.finite (19 / 2), CreatedAt := 0, UpdatedAt := 0 }, ttl24h⟩ ∧
    (handler.AddItem catalogClient IntModel.int64 Transport.healthy 0 emptyStore (utf8 "u1")
      (some ⟨4294967303, 1⟩)).1 = 200 :=
  ⟨by decide, by simp [catalogClient], by decide!, by decide!, by decide!⟩

/-! ## C15 -/

theorem SaveBasket_other_key (net : Transport) (now : Nat) (s : Store) (b : Basket)
    (k : GoString) (hk : k ≠ repository.key b.UserID) :
    (repository.SaveBasket net now s b).2 k = s k := by
  rcases SaveBasket_store net now s b with h | h
  · rw [h]
  · rw [h]
    simp [Store.set, hk]

/-- A mutating call for a user whose record, if it decodes, carries the user's
own id does not touch any other key. -/
theorem exec_other_key (m : IntModel) (s : Store) (c : Call) (k : GoString)
    (hown : ∀ e b, s (repository.key c.op.userID) = some e → e.value = Value.encoded b →
      b.UserID = c.op.userID)
    (hk : k ≠ repository.key c.op.userID) :
    (exec m s c).2 k = s k := by
  rw [exec_eq]
  cases hread : (repository.GetBasket c.net c.now s c.op.userID).1 with
  | error err => rfl
  | ok b0 =>
    have huser : b0.UserID = c.op.userID := by
      rcases GetBasket_ok _ _ _ _ _ hread with ⟨-, h0⟩ | ⟨-, e, he, hv⟩
      · rw [h0]
        rfl
      · exact hown e b0 he hv
    simp only
    cases applyOp m c.op b0.Items with
    | none => rfl
    | some items =>
      simp only
      apply SaveBasket_other_key
      simpa [huser] using hk

/-- What does hold of isolation: for distinct users `u` and `v`, a read or a
delete for `u`, and any of the three mutating methods for `u` on a store in
which the record under `basket:{u}`, if it decodes, carries the user id `u`,
leave what is stored under `basket:{v}` as it was. -/
theorem isolation_of_own_record (m : IntModel) (net : Transport) (now : Nat) (s : Store)
    (u v : GoString) (item : BasketItem) (productID : Nat) (quantity : Int)
    (hne : u ≠ v)
    (hown : ∀ e b, s (repository.key u) = some e → e.value = Value.encoded b → b.UserID = u) :
    (repository.GetBasket net now s u).2 (repository.key v) = s (repository.key v) ∧
    (repository.DeleteBasket net s u).2 (repository.key v) = s (repository.key v) ∧
    (repository.AddItem m net now s u item).2 (repository.key v) = s (repository.key v) ∧
    (repository.RemoveItem net now s u productID).2 (repository.key v)
      = s (repository.key v) ∧
    (repository.UpdateItemQuantity net now s u productID quantity).2 (repository.key v)
      = s (repository.key v) := by
  have hkey : repository.key v ≠ repository.key u :=
    fun h => hne (key_injective v u h).symm
  refine ⟨?_, ?_, ?_, ?_, ?_⟩
  · rw [GetBasket_store]
  · unfold repository.DeleteBasket redisDel
    cases net.delFails <;> simp [hkey]
  · exact exec_other_key m s ⟨net, now, Op.addItem u item⟩ _ hown hkey
  · exact exec_other_key m s ⟨net, now, Op.removeItem u productID⟩ _ hown hkey
  · exact exec_other_key m s ⟨net, now, Op.updateItemQuantity u productID quantity⟩ _ hown hkey

/-- C15 (user isolation at the user id `0xff`). The key function is injective,
and the user id `0xff` differs from the user id U+FFFD.  Starting from the empty
store, the first `AddItem` for `0xff` writes under `basket:\xff` a record whose
user id reads U+FFFD and leaves the key of U+FFFD without a record; the second
`AddItem` for `0xff` succeeds and creates a record under the key of U+FFFD: a
cart store method called for one user has changed what is stored for another. -/
theorem add_item_writes_other_user :
    Function.Injective repository.key ∧
    userFF ≠ replacement ∧
    (repository.AddItem IntModel.int64 Transport.healthy 0 emptyStore userFF widgetTwo).2
      (repository.key userFF) = some ⟨Value.encoded rewrittenCart, ttl24h⟩ ∧
    rewrittenCart.UserID = replacement ∧
    (repository.AddItem IntModel.int64 Transport.healthy 0 emptyStore userFF widgetTwo).2
      (repository.key replacement) = none ∧
    (repository.AddItem IntModel.int64 Transport.healthy 1
      (repository.AddItem IntModel.int64 Transport.healthy 0 emptyStore userFF widgetTwo).2
        userFF widgetThree).1 = .ok () ∧
    (repository.AddItem IntModel.int64 Transport.healthy 1
      (repository.AddItem IntModel.int64 Transport.healthy 0 emptyStore userFF widgetTwo).2
        userFF widgetThree).2 (repository.key replacement)
      = some ⟨Value.encoded
          { UserID := replacement, Items := [widgetFive], Total := F64.finite (95 / 2),
            CreatedAt := 0, UpdatedAt := 1 }, ttl24h⟩ := by
  refine ⟨fun a c h => key_injective a c h, by decide, ?_, rfl, ?_, ?_, ?_⟩
  · rw [AddItem_userFF_first]
    dsimp only
    exact set_same _ _ _
  · rw [AddItem_userFF_first]
    dsimp only
    rw [set_other _ userFF replacement _ (by decide)]
    rfl
  · rw [AddItem_userFF_first]
    dsimp only
    rw [AddItem_userFF_second]
  · rw [AddItem_userFF_first]
    dsimp only
    rw [AddItem_userFF_second]
    dsimp only
    exact set_same _ _ _

end ClusterIac
